import Mathlib

/-
Verification development for the KERI core event-processing engine
(keri/core/eventing.py).  The definitions below are a shallow embedding,
translated from the Python source.  Components of the repository that are
not present under src (the coring primitive codec with Tholder, Nexter,
Serder and the cryptographic primitives, and the parser error classes
missing from the truncated kering.py) are modelled from the specification
and are marked as such in their doc comments.  Machine integers are
modelled as Nat or Int; Python exceptions become an explicit error type;
the LMDB store becomes an association-list state record threaded through
the functions that the source mutates in place.
-/

set_option maxRecDepth 40000

deriving instance DecidableEq for Except

namespace Keri

/-- Identifier prefixes, digests and verification keys are qb64 strings. -/
abbrev Pre := String

/-- qb64 digest strings. -/
abbrev Dig := String

/-- qb64 public-key strings.  For the non-transferable witness prefixes of
the source, the prefix string and the key string coincide, which is why
the source builds a Verfer directly from a witness prefix. -/
abbrev Key := String

/- Insertion-ordered set operations, modelling the orderedset.OrderedSet
used by the source (from orderedset import OrderedSet as oset).  An
ordered set is represented by its duplicate-free element list in insertion
order; equality of ordered sets in that library is order-sensitive list
equality. -/

/-- oset construction: drop later duplicates, keeping first occurrences. -/
def odedup {α : Type} [DecidableEq α] : List α → List α
  | [] => []
  | x :: xs => x :: (odedup xs).filter (fun y => y ≠ x)

/-- Ordered-set intersection: elements of the left operand that are in the
right operand, in left-operand order. -/
def ointer {α : Type} [DecidableEq α] (a b : List α) : List α :=
  a.filter (fun x => x ∈ b)

/-- Ordered-set difference: elements of the left operand not in the right
operand, in left-operand order. -/
def odiff {α : Type} [DecidableEq α] (a b : List α) : List α :=
  a.filter (fun x => x ∉ b)

/-- Ordered-set union: the left operand followed by the members of the
right operand not already present. -/
def ounion {α : Type} [DecidableEq α] (a b : List α) : List α :=
  a ++ b.filter (fun x => x ∉ a)

/- Cryptographic primitives.  The spec fixes these by contract only
(Ed25519 signing and verification, Blake3/SHA-2 hashing); coring is not
under src, so they are modelled from the spec with a perfect-cryptography
encoding: a digest is an injective tagging of its preimage and a signature
verifies exactly when it was produced over the given payload by the key. -/

/-- Modelled from the spec: collision-free digest of a byte string
(coring digest primitives are not under src). -/
def hashData (data : String) : Dig :=
  "H%" ++ data

/-- Modelled from the spec: the unique valid signature of a payload under
a key in the perfect-cryptography model. -/
def sigData (key : Key) (payload : String) : String :=
  "SG%" ++ key ++ "%" ++ payload

/-- Modelled from the spec: Ed25519 verification contract, true exactly
for the signature produced over the payload by the key. -/
def verifyRawSig (key : Key) (raw : String) (payload : String) : Bool :=
  raw == sigData key payload

/- Signing thresholds.  coring.Tholder is not under src. -/

/-- Modelled from the spec: a signing threshold is either an integer m
(any m of n) or a list of clauses of rational weights (coring.Tholder is
not under src). -/
inductive Sith where
  | num (m : Nat)
  | clauses (cls : List (List Rat))
  deriving DecidableEq, Repr

/-- Modelled from the spec: minimum number of keys the threshold assumes,
used to reject mismatched key-list lengths. -/
def Sith.size : Sith → Nat
  | .num m => m
  | .clauses cls => (cls.map List.length).sum

/-- Rational weight rendered canonically for the limen encoding. -/
def ratEnc (q : Rat) : String :=
  toString q.num ++ "/" ++ toString q.den

/-- Modelled from the spec: canonical byte-string encoding of the
threshold used inside the next-key commitment digest. -/
def Sith.limen : Sith → String
  | .num m => "n." ++ toString m
  | .clauses cls =>
      "w." ++ String.intercalate "&"
        (cls.map (fun c => String.intercalate "," (c.map ratEnc)))

/-- One weighted clause is satisfied when the weights selected by the
index set, offset by the clause base, sum to at least one. -/
def satClauses (indices : List Nat) : Nat → List (List Rat) → Bool
  | _, [] => true
  | base, c :: rest =>
      decide ((c.enum.map (fun jw => if base + jw.1 ∈ indices then jw.2 else 0)).sum ≥ (1 : Rat))
      && satClauses indices (base + c.length) rest

/-- Modelled from the spec: threshold satisfaction over a set of verified
signature indices; an integer threshold counts unique indices, a weighted
threshold requires every clause satisfied. -/
def Sith.satisfy (t : Sith) (indices : List Nat) : Bool :=
  match t with
  | .num m => (odedup indices).length ≥ m
  | .clauses cls => satClauses indices 0 cls

/-- Modelled from the spec: the next-key commitment digest over the limen
encoding of the threshold followed by the next keys (coring.Nexter is not
under src). -/
def nxtDigest (limen : String) (keys : List Key) : Dig :=
  hashData (String.intercalate "," (limen :: keys))

/- Events.  The source manipulates untyped ordered mappings; the typed
embedding gives each event the union of the per-type fields, so the
field-presence (labels) checks of the source are vacuously satisfied. -/

/-- Event type tags of the embedded core fragment. -/
inductive Ilk where
  | icp | rot | ixn | dip | drt | rct
  deriving DecidableEq, Repr

/-- Anchored event seal: identifier, sequence number, digest. -/
structure Seal where
  i : Pre
  s : Nat
  d : Dig
  deriving DecidableEq, Repr

/-- A key event: the typed form of the ordered-mapping event body. -/
structure Event where
  i : Pre
  s : Nat
  t : Ilk
  p : Dig
  d : Dig
  kt : Sith
  k : List Key
  n : Option Dig
  bt : Nat
  b : List Pre
  br : List Pre
  ba : List Pre
  c : List String
  a : List Seal
  di : Pre
  deriving DecidableEq, Repr

def Ilk.tag : Ilk → String
  | .icp => "icp"
  | .rot => "rot"
  | .ixn => "ixn"
  | .dip => "dip"
  | .drt => "drt"
  | .rct => "rct"

def Seal.enc (sl : Seal) : String :=
  sl.i ++ ";" ++ toString sl.s ++ ";" ++ sl.d

/-- Modelled from the spec: canonical serialization of an event body
(coring.Serder is not under src).  Stands in for the raw bytes over which
digests and signatures are computed. -/
def serEvent (ev : Event) : String :=
  String.intercalate "|"
    [ev.i, toString ev.s, ev.t.tag, ev.p, ev.d, ev.kt.limen,
     String.intercalate "," ev.k, (ev.n.getD ""),
     toString ev.bt, String.intercalate "," ev.b,
     String.intercalate "," ev.br, String.intercalate "," ev.ba,
     String.intercalate "," ev.c,
     String.intercalate "," (ev.a.map Seal.enc), ev.di]

/-- Digest of an event: computed over its canonical serialized bytes. -/
def evDig (ev : Event) : Dig :=
  hashData (serEvent ev)

/-- Indexed signature: a zero-based index into the key (or witness) list
of the signer together with the raw signature bytes. -/
structure Siger where
  index : Nat
  raw : String
  deriving DecidableEq, Repr

/-- qb64 text of an indexed signature, the unit stored in the signature
sets of the database. -/
def Siger.qb64 (g : Siger) : String :=
  "S" ++ toString g.index ++ "%" ++ g.raw

/-- Unindexed receipt signature with its attached verification key; the
transferable flag of the key comes from its derivation code. -/
structure Cigar where
  vK : Key
  raw : String
  deriving DecidableEq, Repr

/-- qb64 text of an unindexed signature. -/
def Cigar.qb64 (c : Cigar) : String :=
  "C%" ++ c.raw

/- Error classes.  All source exceptions derive from ValidationError save
ValueError; the tag string distinguishes the source error messages raised
at distinct places under the same class. -/

inductive Err where
  | validation (tag : String)
  | missingSignature
  | missingWitnessSignature
  | missingDelegation
  | outOfOrder
  | likelyDuplicitous
  | unverifiedReceipt
  | unverifiedWitnessReceipt
  | value (tag : String)
  deriving DecidableEq, Repr

/- Database.  The Baser store (db.dbing) is consumed, not implemented, by
the core; its operations are modelled on association lists: put is
put-if-absent by key, set overwrites, add appends to the insertion-ordered
duplicate set at a key if the value is absent. -/

/-- The logical database state: event bodies by (pre, dig), the KEL index
by (pre, sn), the first-seen log per pre in append order, signature and
witness-signature sets, receipt couples, timestamps, and the escrow
indexes used by the embedded fragment. -/
structure Baser where
  evts : List ((Pre × Dig) × Event)
  kels : List ((Pre × Nat) × Dig)
  fels : List (Pre × Dig)
  sigs : List ((Pre × Dig) × String)
  wigs : List ((Pre × Dig) × String)
  rcts : List ((Pre × Dig) × String)
  dts : List ((Pre × Dig) × String)
  pses : List ((Pre × Nat) × Dig)
  pwes : List ((Pre × Nat) × Dig)
  ooes : List ((Pre × Nat) × Dig)
  ldes : List ((Pre × Nat) × Dig)
  pdes : List ((Pre × Dig) × String)
  aes : List ((Pre × Dig) × String)
  ures : List ((Pre × Nat) × String)
  uwes : List ((Pre × Nat) × String)
  deriving DecidableEq, Repr

def Baser.empty : Baser :=
  ⟨[], [], [], [], [], [], [], [], [], [], [], [], [], [], []⟩

/-- Add a value to the insertion-ordered duplicate set at a key; adding an
identical (key, value) pair again is a no-op. -/
def addDup {κ α : Type} [DecidableEq κ] [DecidableEq α]
    (l : List (κ × α)) (k : κ) (v : α) : List (κ × α) :=
  if (k, v) ∈ l then l else l ++ [(k, v)]

/-- Put-if-absent by key: the write is dropped when the key exists. -/
def putAbsent {κ α : Type} [DecidableEq κ] [DecidableEq α]
    (l : List (κ × α)) (k : κ) (v : α) : List (κ × α) :=
  if l.any (fun e => e.1 = k) then l else l ++ [(k, v)]

/-- Overwriting set by key. -/
def setVal {κ α : Type} [DecidableEq κ] [DecidableEq α]
    (l : List (κ × α)) (k : κ) (v : α) : List (κ × α) :=
  l.filter (fun e => e.1 ≠ k) ++ [(k, v)]

/-- First value at a key. -/
def getVal {κ α : Type} [DecidableEq κ] [DecidableEq α]
    (l : List (κ × α)) (k : κ) : Option α :=
  (l.find? (fun e => e.1 = k)).map (fun e => e.2)

/-- Last duplicate at a key, the getKeLast of the source. -/
def getLastDup {κ α : Type} [DecidableEq κ] [DecidableEq α]
    (l : List (κ × α)) (k : κ) : Option α :=
  ((l.filter (fun e => e.1 = k)).getLast?).map (fun e => e.2)

def Baser.getKeLast (db : Baser) (pre : Pre) (sn : Nat) : Option Dig :=
  getLastDup db.kels (pre, sn)

def Baser.getEvt (db : Baser) (pre : Pre) (dig : Dig) : Option Event :=
  getVal db.evts (pre, dig)

/-- First-seen lookup by ordinal: the nth appended entry for the pre. -/
def Baser.getFe (db : Baser) (pre : Pre) (fn : Nat) : Option Dig :=
  (((db.fels.filter (fun e => e.1 = pre)).map (fun e => e.2)).get? fn)

/-- Append to the first-seen log, returning the new monotonic ordinal. -/
def Baser.appendFe (db : Baser) (pre : Pre) (dig : Dig) : Nat × Baser :=
  ((db.fels.filter (fun e => e.1 = pre)).length,
   { db with fels := db.fels ++ [(pre, dig)] })

/- Key state. -/

/-- Location of the last establishment event. -/
structure LastEstLoc where
  s : Nat
  d : Dig
  deriving DecidableEq, Repr

/-- Per-identifier key state held by a Kever, together with the processing
configuration (own pre and locality) the Kever copies from its Kevery. -/
structure KeverState where
  opre : Option Pre
  locl : Bool
  pre : Pre
  preTrans : Bool
  sn : Nat
  dig : Dig
  ilk : Ilk
  tholder : Sith
  verfers : List Key
  nexter : Option Dig
  toad : Nat
  wits : List Pre
  cuts : List Pre
  adds : List Pre
  estOnly : Bool
  doNotDelegate : Bool
  lastEst : LastEstLoc
  delegator : Option Pre
  fn : Nat
  deriving DecidableEq, Repr

/-- The transferable property: a nexter is present and the prefix has a
transferable derivation code. -/
def KeverState.transferable (st : KeverState) : Bool :=
  st.nexter.isSome && st.preTrans

/-- Authorizer (delegating event) couple stored in the database: sequence
number followed by digest. -/
def coupleEnc (sq : Nat) (dg : Dig) : String :=
  toString sq ++ "%" ++ dg

/-- verifySigs: dedup the indexed signatures by their qb64 text, reject
any index out of range of the key list, and return the unique verified
signatures together with their indices. -/
def verifySigs (raw : String) (sigers : List Siger) (verfers : List Key) :
    Except Err (List Siger × List Nat) :=
  let usigers := odedup sigers
  if usigers.any (fun g => verfers.length ≤ g.index) then
    .error (.validation "index")
  else
    let vsigers := usigers.filter (fun g => verifyRawSig (verfers.getD g.index "") g.raw raw)
    .ok (vsigers, vsigers.map (fun g => g.index))

/-- Kever.escrowPSEvent: write timestamp, signatures, optional witness
signatures and the event body, then add the event to the partially signed
escrow index. -/
def escrowPSEvent (db : Baser) (now : String) (ev : Event)
    (sigers wigers : List Siger) : Baser :=
  let dgkey := (ev.i, evDig ev)
  let db := { db with dts := putAbsent db.dts dgkey now }
  let db := { db with sigs := sigers.foldl (fun l (g : Siger) => addDup l dgkey (Siger.qb64 g)) db.sigs }
  let db := if wigers ≠ [] then
      { db with wigs := wigers.foldl (fun l (g : Siger) => addDup l dgkey (Siger.qb64 g)) db.wigs }
    else db
  let db := { db with evts := putAbsent db.evts dgkey ev }
  { db with pses := addDup db.pses (ev.i, ev.s) (evDig ev) }

/-- Kever.escrowPACouple: record the authorizer couple for a partially
delegated event. -/
def escrowPACouple (db : Baser) (ev : Event) (sq : Nat) (dg : Dig) : Baser :=
  { db with pdes := putAbsent db.pdes (ev.i, evDig ev) (coupleEnc sq dg) }

/-- Kever.escrowPWEvent: write timestamp, witness signatures, optional
signatures and the event body, then add the event to the partially
witnessed escrow index. -/
def escrowPWEvent (db : Baser) (now : String) (ev : Event)
    (wigers sigers : List Siger) : Baser :=
  let dgkey := (ev.i, evDig ev)
  let db := { db with dts := putAbsent db.dts dgkey now }
  let db := { db with wigs := wigers.foldl (fun l (g : Siger) => addDup l dgkey (Siger.qb64 g)) db.wigs }
  let db := if sigers ≠ [] then
      { db with sigs := sigers.foldl (fun l (g : Siger) => addDup l dgkey (Siger.qb64 g)) db.sigs }
    else db
  let db := { db with evts := putAbsent db.evts dgkey ev }
  { db with pwes := addDup db.pwes (ev.i, ev.s) (evDig ev) }

/-- Kevery.escrowOOEvent: escrow an out-of-order event with its
signatures and optional authorizer couple. -/
def escrowOOEvent (db : Baser) (now : String) (ev : Event) (sigers : List Siger)
    (seqner : Option Nat) (diger : Option Dig) : Baser :=
  let dgkey := (ev.i, evDig ev)
  let db := { db with dts := putAbsent db.dts dgkey now }
  let db := { db with sigs := sigers.foldl (fun l (g : Siger) => addDup l dgkey (Siger.qb64 g)) db.sigs }
  let db := { db with evts := putAbsent db.evts dgkey ev }
  let db := { db with ooes := addDup db.ooes (ev.i, ev.s) (evDig ev) }
  match seqner, diger with
  | some sq, some dg => { db with pdes := putAbsent db.pdes dgkey (coupleEnc sq dg) }
  | _, _ => db

/-- Kevery.escrowLDEvent: escrow a likely duplicitous event with its
signatures. -/
def escrowLDEvent (db : Baser) (now : String) (ev : Event)
    (sigers : List Siger) : Baser :=
  let dgkey := (ev.i, evDig ev)
  let db := { db with dts := putAbsent db.dts dgkey now }
  let db := { db with sigs := sigers.foldl (fun l (g : Siger) => addDup l dgkey (Siger.qb64 g)) db.sigs }
  let db := { db with evts := putAbsent db.evts dgkey ev }
  { db with ldes := addDup db.ldes (ev.i, ev.s) (evDig ev) }

/-- Result of Kever.rotate: the parsed new threshold, witness threshold,
witness list, cuts and adds. -/
structure RotOut where
  tholder : Sith
  toad : Nat
  wits : List Pre
  cuts : List Pre
  adds : List Pre
  deriving DecidableEq, Repr

/-- The sequence-number window block at the head of Kever.rotate: out of
order beyond current plus one, stale at or below the last establishment
event, recovery strictly between (allowed only over an ixn state and with
the prior digest of the stored KEL event at sn minus one matching the p
field), and the in-order prior-digest match. -/
def rotateWindow (st : KeverState) (db : Baser) (ev : Event) : Except Err Unit :=
  let pre := ev.i
  let dig := ev.p
  let sn := ev.s
  if sn > st.sn + 1 then .error (.validation "out-of-order")
  else if sn ≤ st.sn then
    (if sn ≤ st.lastEst.s then .error (.validation "stale")
     else if st.ilk ≠ .ixn then .error (.validation "recovery-ilk")
     else
       match db.getKeLast pre (sn - 1) with
       | none => .error (.validation "recovery-sn")
       | some pdig =>
         match db.getEvt pre pdig with
         | none => .error (.validation "recovery-dig")
         | some pev =>
           if evDig pev ≠ dig then .error (.validation "recovery-prior")
           else .ok ())
  else
    (if st.dig ≠ dig then .error (.validation "prior") else .ok ())

/-- Kever.rotate continued: after the window, the non-transferable guard,
the new threshold against the new key list, the next-key commitment of
the prior establishment event, and the witness cuts and adds. -/
def rotate (st : KeverState) (db : Baser) (ev : Event) : Except Err RotOut :=
  match rotateWindow st db ev with
  | .error e => .error e
  | .ok _ =>
    match st.nexter with
    | none => .error (.validation "nontrans")
    | some nxt =>
      let tholder := ev.kt
      if ev.k.length < tholder.size then .error (.validation "sith")
      else if nxtDigest tholder.limen ev.k ≠ nxt then .error (.validation "nxt")
      else
        let witset := odedup st.wits
        let cuts := ev.br
        let cutset := odedup cuts
        if cutset.length ≠ cuts.length then .error (.validation "cut-dup")
        else if ointer witset cutset ≠ cutset then .error (.validation "cut-not-wit")
        else
          let adds := ev.ba
          let addset := odedup adds
          if addset.length ≠ adds.length then .error (.validation "add-dup")
          else if ointer cutset addset ≠ [] then .error (.validation "cut-add")
          else if ointer witset addset ≠ [] then .error (.validation "wit-add")
          else
            let wits := ounion (odiff witset cutset) addset
            if (wits.length : Int) ≠ (st.wits.length : Int) - (cuts.length : Int) + (adds.length : Int) then
              .error (.validation "wit-comb")
            else
              let toad := ev.bt
              if wits ≠ [] then
                (if toad < 1 ∨ toad > wits.length then .error (.validation "toad")
                 else .ok ⟨tholder, toad, wits, cuts, adds⟩)
              else
                (if toad ≠ 0 then .error (.validation "toad")
                 else .ok ⟨tholder, toad, wits, cuts, adds⟩)

/-- Kever.validateDelegation inner logic: resolve the delegating event
through the authorizer couple, escrowing as partially signed or delegated
when the delegating event is not yet accepted, and check the delegation
seal.  A missing couple or missing delegator state crashes the source
with an attribute error, modelled as a value error. -/
def validateDelegationGo (_st : KeverState) (db : Baser)
    (kevers : List (Pre × KeverState)) (now : String) (ev : Event)
    (sigers wigers : List Siger) :
    Option Pre → Option Nat → Option Dig → Baser × Except Err (Option Pre)
  | some delegator, some ssn, some dg =>
    if ssn < 1 then (db, .error (.validation "delegation-sn"))
    else
      match db.getKeLast delegator ssn with
      | none =>
        if (if ev.t = .dip then ev.s ≠ 0 else ev.s < 1) then
          (db, .error (.validation "event-sn"))
        else
          let db := escrowPSEvent db now ev sigers wigers
          let db := escrowPACouple db ev ssn dg
          (db, .error .missingDelegation)
      | some ddig =>
        match db.getEvt delegator ddig with
        | none => (db, .error (.validation "missing-delegation"))
        | some dev =>
          if evDig dev ≠ dg then (db, .error (.validation "delegation-dig"))
          else
            match getVal kevers delegator with
            | none => (db, .error (.validation "delegator-kever"))
            | some dk =>
              if dk.doNotDelegate then (db, .error (.validation "do-not-delegate"))
              else if dev.a.any (fun sl =>
                  sl.i == ev.i && sl.s == ev.s && evDig ev == sl.d) then
                (db, .ok (some delegator))
              else (db, .error (.validation "delegation-seal"))
  | _, _, _ => (db, .error (.value "delegation-attachment"))

/-- Kever.validateDelegation outer dispatch: a non-delegated event type
has no delegator; for dip the delegator comes from the di field, for drt
from the state. -/
def validateDelegation (st : KeverState) (db : Baser)
    (kevers : List (Pre × KeverState)) (now : String) (ev : Event)
    (sigers wigers : List Siger) (seqner : Option Nat) (diger : Option Dig) :
    Baser × Except Err (Option Pre) :=
  if ev.t ≠ .dip ∧ ev.t ≠ .drt then (db, .ok none)
  else validateDelegationGo st db kevers now ev sigers wigers
    (if ev.t = .dip then some ev.di else st.delegator) seqner diger

/-- Kever.valSigsDelWigs: validate controller signatures against the key
list and threshold, delegation if any, and witness signatures against the
witness roster and toad, escrowing partially signed or partially
witnessed events.  Note that the key-list-length guard reads the tholder
of the pre-event key state, not the tholder argument. -/
def valSigsDelWigs (st : KeverState) (db : Baser)
    (kevers : List (Pre × KeverState)) (now : String) (ev : Event)
    (sigers : List Siger) (verfers : List Key) (tholder : Sith)
    (wigers : List Siger) (toad : Nat) (wits : List Pre)
    (seqner : Option Nat) (diger : Option Dig) :
    Baser × Except Err (List Siger × Option Pre × List Siger) :=
  if verfers.length < st.tholder.size then (db, .error (.validation "sith"))
  else
    match verifySigs (serEvent ev) sigers verfers with
    | .error e => (db, .error e)
    | .ok (vsigers, indices) =>
      match verifySigs (serEvent ev) wigers wits with
      | .error e => (db, .error e)
      | .ok (vwigers, windices) =>
        if indices = [] then (db, .error (.validation "no-sigs"))
        else if ¬ (tholder.satisfy indices) then
          let db := escrowPSEvent db now ev vsigers vwigers
          let db := match seqner, diger with
            | some sq, some dg => escrowPACouple db ev sq dg
            | _, _ => db
          (db, .error .missingSignature)
        else
          match validateDelegation st db kevers now ev vsigers vwigers seqner diger with
          | (db2, .error e) => (db2, .error e)
          | (db2, .ok delegator) =>
            let witsReq := (!wits.isEmpty && st.opre.isNone) ||
              (!wits.isEmpty && !st.locl && st.opre.isSome &&
               !(wits.contains (st.opre.getD "")))
            if witsReq then
              if wits.length < toad then (db2, .error (.validation "toad"))
              else if windices.length < toad then
                (escrowPWEvent db2 now ev vwigers vsigers, .error .missingWitnessSignature)
              else (db2, .ok (vsigers, delegator, vwigers))
            else (db2, .ok (vsigers, delegator, vwigers))

/-- Kever.logEvent: idempotent writes of timestamp, signature sets and
event body keyed by the digest of the current state event, followed when
first seen by the authorizer seal, the first-seen append returning the
new ordinal, the timestamp overwrite, and always the KEL insertion at the
current state sequence number.  Cloned-replay arguments are outside the
embedded fragment. -/
def logEvent (st : KeverState) (db : Baser) (now : String) (ev : Event)
    (sigers wigers : List Siger) (first : Bool)
    (seqner : Option Nat) (diger : Option Dig) : Option Nat × Baser :=
  let dgkey := (st.pre, st.dig)
  let db := { db with dts := putAbsent db.dts dgkey now }
  let db := if sigers ≠ [] then
      { db with sigs := sigers.foldl (fun l (g : Siger) => addDup l dgkey (Siger.qb64 g)) db.sigs }
    else db
  let db := if wigers ≠ [] then
      { db with wigs := wigers.foldl (fun l (g : Siger) => addDup l dgkey (Siger.qb64 g)) db.wigs }
    else db
  let db := { db with evts := putAbsent db.evts dgkey ev }
  let fndb : Option Nat × Baser :=
    if first then
      let db := match seqner, diger with
        | some sq, some dg => { db with aes := setVal db.aes dgkey (coupleEnc sq dg) }
        | _, _ => db
      let (fn, db) := db.appendFe st.pre st.dig
      let db := { db with dts := setVal db.dts dgkey now }
      (some fn, db)
    else (none, db)
  let db := fndb.2
  (fndb.1, { db with kels := addDup db.kels (st.pre, st.sn) st.dig })

/-- Kever.update for rot and drt: the rotation path of the key-state
machine.  Checks transferability, prefix and sequence number, runs
Kever.rotate and Kever.valSigsDelWigs, checks the delegator, then commits
the new state and logs the event as first seen.  For ixn: order and
prior-digest checks, signature validation against the pre-existing state,
then commit and log. -/
def update (st : KeverState) (db : Baser) (kevers : List (Pre × KeverState))
    (now : String) (ev : Event) (sigers wigers : List Siger)
    (seqner : Option Nat) (diger : Option Dig) :
    Baser × Except Err KeverState :=
  if ¬ st.transferable then (db, .error (.validation "nontrans-state"))
  else if ev.i ≠ st.pre then (db, .error (.validation "pre-mismatch"))
  else if ev.s < 1 then (db, .error (.validation "sn-zero"))
  else if ev.t = .rot ∨ ev.t = .drt then
    if st.delegator.isSome && !(ev.t == .drt) then
      (db, .error (.validation "delegated-rot"))
    else
      match rotate st db ev with
      | .error e => (db, .error e)
      | .ok ro =>
        match valSigsDelWigs st db kevers now ev sigers ev.k ro.tholder wigers
            ro.toad ro.wits seqner diger with
        | (db2, .error e) => (db2, .error e)
        | (db2, .ok (vsigers, delegator, vwigers)) =>
          if delegator ≠ st.delegator then
            (db2, .error (.validation "delegator-mismatch"))
          else
            let st2 := { st with
              sn := ev.s, dig := evDig ev, ilk := ev.t,
              tholder := ro.tholder, verfers := ev.k, nexter := ev.n,
              toad := ro.toad, wits := ro.wits, cuts := ro.cuts,
              adds := ro.adds, lastEst := ⟨ev.s, evDig ev⟩ }
            let fndb := logEvent st2 db2 now ev vsigers vwigers true seqner diger
            (fndb.2, .ok { st2 with fn := fndb.1.getD st2.fn })
  else if ev.t = .ixn then
    if st.estOnly then (db, .error (.validation "est-only"))
    else if ev.s ≠ st.sn + 1 then (db, .error (.validation "sn"))
    else if st.dig ≠ ev.p then (db, .error (.validation "prior"))
    else
      match valSigsDelWigs st db kevers now ev sigers st.verfers st.tholder
          wigers st.toad st.wits none none with
      | (db2, .error e) => (db2, .error e)
      | (db2, .ok (vsigers, _delegator, vwigers)) =>
        let st2 := { st with sn := ev.s, dig := evDig ev, ilk := ev.t }
        let fndb := logEvent st2 db2 now ev vsigers vwigers true none none
        (fndb.2, .ok { st2 with fn := fndb.1.getD st2.fn })
  else (db, .error (.validation "unsupported-ilk"))

/-- Modelled from the spec: transferable bit of a prefix derivation code
(coring.Prefixer is not under src).  Prefixes with the non-transferable
basic code start with B. -/
def preTransCode (pre : Pre) : Bool :=
  !(pre.data.head? == some 'B')

/-- Modelled from the spec: AID derivation check at inception
(coring.Prefixer.verify is not under src).  A basic prefix equals its
single public key; a self-addressing prefix equals a tagged digest of the
inception event body with the prefix field cleared. -/
def prefixVerify (pre : Pre) (ev : Event) : Bool :=
  (ev.k == [pre]) || (pre == "E%" ++ evDig { ev with i := "" })

/-- Kever creation from an inception event: the union of Kever.__init__,
Kever.incept and Kever.config, followed by signature and witness
validation and the first-seen log write. -/
def inceptKever (opre : Option Pre) (locl : Bool) (db : Baser)
    (kevers : List (Pre × KeverState)) (now : String) (ev : Event)
    (sigers wigers : List Siger) (seqner : Option Nat) (diger : Option Dig) :
    Baser × Except Err KeverState :=
  if ev.t ≠ .icp ∧ ev.t ≠ .dip then (db, .error (.validation "ilk"))
  else if ev.k.length < ev.kt.size then (db, .error (.validation "sith"))
  else if ¬ prefixVerify ev.i ev then (db, .error (.validation "pre-derivation"))
  else if ev.s ≠ 0 then (db, .error (.validation "nonzero-sn"))
  else if ¬ preTransCode ev.i ∧ ev.n ≠ none then (db, .error (.validation "nontrans-nxt"))
  else if (odedup ev.b).length ≠ ev.b.length then (db, .error (.validation "backer-dup"))
  else if ev.b ≠ [] ∧ (ev.bt < 1 ∨ ev.bt > ev.b.length) then (db, .error (.validation "toad"))
  else if ev.b = [] ∧ ev.bt ≠ 0 then (db, .error (.validation "toad"))
  else
    let st : KeverState := {
      opre := opre, locl := locl, pre := ev.i,
      preTrans := preTransCode ev.i, sn := 0, dig := evDig ev, ilk := ev.t,
      tholder := ev.kt, verfers := ev.k, nexter := ev.n, toad := ev.bt,
      wits := ev.b, cuts := [], adds := [],
      estOnly := "EO" ∈ ev.c, doNotDelegate := "DND" ∈ ev.c,
      lastEst := ⟨0, evDig ev⟩, delegator := none, fn := 0 }
    match valSigsDelWigs st db kevers now ev sigers ev.k ev.kt wigers ev.bt ev.b
        seqner diger with
    | (db2, .error e) => (db2, .error e)
    | (db2, .ok (vsigers, delegator, vwigers)) =>
      let st := { st with delegator := delegator }
      let fndb := logEvent st db2 now ev vsigers vwigers true seqner diger
      (fndb.2, .ok { st with fn := fndb.1.getD 0 })

/-- Kevery state: the map of Kevers, the database, the own-identifier
filter, locality and direct mode.  Cues are notifications to the
surrounding transport and are not part of the embedded state. -/
structure Kevery where
  kevers : List (Pre × KeverState)
  db : Baser
  opre : Option Pre
  locl : Bool
  direct : Bool
  deriving DecidableEq, Repr

/-- Kevery.fetchEstEvent recursion with explicit fuel: walk backwards
from sn following the stored events until an establishment event is
found. -/
def fetchEstEventGo (db : Baser) (pre : Pre) : Nat → Nat → Option Event
  | 0, _ => none
  | fuel+1, sn =>
    match db.getKeLast pre sn with
    | none => none
    | some dig =>
      match db.getEvt pre dig with
      | none => none
      | some ev =>
        if ev.t = .icp ∨ ev.t = .dip ∨ ev.t = .rot ∨ ev.t = .drt then some ev
        else if ev.s = 0 then none
        else fetchEstEventGo db pre fuel (ev.s - 1)

/-- Kevery.fetchEstEvent: the establishment event authoritative for the
event at sn in the KEL of pre. -/
def fetchEstEvent (db : Baser) (pre : Pre) (sn : Nat) : Option Event :=
  fetchEstEventGo db pre (sn + 1) sn

/-- Kevery.processEvent for the embedded fragment (not cloned, check
false): locality restrictions, first-seen inception or out-of-order
escrow when the identifier is unknown, and for a known identifier the
duplicate and duplicitous handling, the in-order or recovery dispatch to
Kever.update, and the out-of-order escrow.  Receipt cue emission is not
part of the embedded state.  Places where the source would crash on a
missing value raise a value error. -/
def processEvent (kvy : Kevery) (now : String) (ev : Event)
    (sigers wigers : List Siger) (seqner : Option Nat) (diger : Option Dig) :
    Kevery × Except Err Unit :=
  let pre := ev.i
  let sn := ev.s
  let ilk := ev.t
  let dig := evDig ev
  if kvy.opre.isSome && kvy.locl && !(kvy.opre == some pre) then
    (kvy, .error (.value "nonlocal"))
  else if kvy.opre.isSome && !kvy.locl && kvy.opre == some pre then
    (kvy, .error (.value "local"))
  else
    match getVal kvy.kevers pre with
    | none =>
      if ilk = .icp ∨ ilk = .dip then
        match inceptKever kvy.opre kvy.locl kvy.db kvy.kevers now ev sigers wigers
            seqner diger with
        | (db2, .error e) => ({ kvy with db := db2 }, .error e)
        | (db2, .ok kever) =>
          ({ kvy with db := db2, kevers := kvy.kevers ++ [(pre, kever)] }, .ok ())
      else
        ({ kvy with db := escrowOOEvent kvy.db now ev sigers seqner diger },
         .error .outOfOrder)
    | some kever =>
      if ilk = .icp ∨ ilk = .dip then
        if sn ≠ 0 then (kvy, .error (.value "icp-sn"))
        else
          match fetchEstEvent kvy.db pre sn with
          | none => (kvy, .error (.value "fetch-est"))
          | some eserder =>
            if evDig eserder = dig then
              match verifySigs (serEvent ev) sigers eserder.k with
              | .error e => (kvy, .error e)
              | .ok (vsigers, _) =>
                match verifySigs (serEvent ev) wigers eserder.b with
                | .error e => (kvy, .error e)
                | .ok (vwigers, _) =>
                  if vsigers ≠ [] ∨ vwigers ≠ [] then
                    let fndb := logEvent kever kvy.db now ev vsigers vwigers false none none
                    ({ kvy with db := fndb.2 }, .ok ())
                  else (kvy, .ok ())
            else
              ({ kvy with db := escrowLDEvent kvy.db now ev sigers },
               .error .likelyDuplicitous)
      else
        let sno := kever.sn + 1
        if sn > sno then
          ({ kvy with db := escrowOOEvent kvy.db now ev sigers seqner diger },
           .error .outOfOrder)
        else if sn = sno ∨ ((ilk = .rot ∨ ilk = .drt) ∧ kever.lastEst.s < sn ∧ sn ≤ sno) then
          match update kever kvy.db kvy.kevers now ev sigers wigers seqner diger with
          | (db2, .error e) => ({ kvy with db := db2 }, .error e)
          | (db2, .ok kever2) =>
            ({ kvy with db := db2, kevers := setVal kvy.kevers pre kever2 }, .ok ())
        else
          match kvy.db.getKeLast pre sn with
          | none => (kvy, .error (.value "kel-missing"))
          | some ddig =>
            if ddig = dig then
              match fetchEstEvent kvy.db pre sn with
              | none => (kvy, .error (.value "fetch-est"))
              | some eserder =>
                match verifySigs (serEvent ev) sigers eserder.k with
                | .error e => (kvy, .error e)
                | .ok (vsigers, _) =>
                  match (if eserder.s = kever.lastEst.s ∧ evDig eserder = kever.lastEst.d then
                      verifySigs (serEvent ev) wigers kever.wits
                    else .ok ([], [])) with
                  | .error e => (kvy, .error e)
                  | .ok (vwigers, _) =>
                    if vsigers ≠ [] ∨ vwigers ≠ [] then
                      let fndb := logEvent kever kvy.db now ev vsigers vwigers false none none
                      ({ kvy with db := fndb.2 }, .ok ())
                    else (kvy, .ok ())
            else
              ({ kvy with db := escrowLDEvent kvy.db now ev sigers },
               .error .likelyDuplicitous)

/-- Kevery.escrowUReceipt: escrow unverified non-transferable receipt
triples (event digest, receipter prefix, signature) under (pre, sn),
skipping transferable receipter keys. -/
def escrowUReceipt (db : Baser) (now : String) (pre : Pre) (sn : Nat)
    (cigars : List Cigar) (dig : Dig) : Baser :=
  let db := { db with dts := putAbsent db.dts (pre, dig) now }
  cigars.foldl (fun db c =>
    if preTransCode c.vK then db
    else { db with ures := addDup db.ures (pre, sn) (dig ++ c.vK ++ Cigar.qb64 c) }) db

/-- Kevery.escrowUWReceipt: escrow unverified witness receipt couples
(event digest, witness indexed signature) under (pre, sn). -/
def escrowUWReceipt (db : Baser) (now : String) (pre : Pre) (sn : Nat)
    (wigers : List Siger) (dig : Dig) : Baser :=
  let db := { db with dts := putAbsent db.dts (pre, dig) now }
  wigers.foldl (fun db g =>
    { db with uwes := addDup db.uwes (pre, sn) (dig ++ Siger.qb64 g) }) db

/-- Loop body of Kevery.processReceipt over the attached couples: skip
transferable receipter keys and own receipts, verify the signature over
the receipted event, and store either a witness indexed signature (when
the receipter is in the witness list of the current key state) or a
receipt couple.  A missing Kever for the pre crashes the source with a
key error, modelled as a value error. -/
def rctCouples (kvy : Kevery) (pre : Pre) (lserder : Event) (ldig : Dig) :
    Baser → List Cigar → Baser × Except Err Unit
  | db, [] => (db, .ok ())
  | db, cigar :: rest =>
    if preTransCode cigar.vK then rctCouples kvy pre lserder ldig db rest
    else if kvy.opre.isSome && kvy.opre == some cigar.vK &&
            (kvy.opre == some pre || !kvy.locl) then
      rctCouples kvy pre lserder ldig db rest
    else if verifyRawSig cigar.vK cigar.raw (serEvent lserder) then
      match getVal kvy.kevers pre with
      | none => (db, .error (.value "kever-missing"))
      | some kever =>
        if kever.wits.contains cigar.vK then
          let wiger : Siger := ⟨kever.wits.indexOf cigar.vK, cigar.raw⟩
          let db := { db with wigs := addDup db.wigs (pre, ldig) wiger.qb64 }
          rctCouples kvy pre lserder ldig db rest
        else
          let db := { db with rcts := addDup db.rcts (pre, ldig) (cigar.vK ++ Cigar.qb64 cigar) }
          rctCouples kvy pre lserder ldig db rest
    else rctCouples kvy pre lserder ldig db rest

/-- Kevery.processReceipt: process one non-transferable receipt message
with attached couples.  The receipt is only accepted for the last seen
event at its (pre, sn); a missing event escrows the couples as
unverified, and a digest mismatch is a stale receipt. -/
def processReceipt (kvy : Kevery) (now : String) (ev : Event)
    (cigars : List Cigar) : Kevery × Except Err Unit :=
  let pre := ev.i
  let sn := ev.s
  match kvy.db.getKeLast pre sn with
  | none =>
    ({ kvy with db := escrowUReceipt kvy.db now pre sn cigars ev.d },
     .error .unverifiedReceipt)
  | some ldig =>
    match kvy.db.getEvt pre ldig with
    | none => (kvy, .error (.value "evt-missing"))
    | some lserder =>
      if evDig lserder ≠ ev.d then (kvy, .error (.validation "stale-receipt"))
      else
        match rctCouples kvy pre lserder ldig kvy.db cigars with
        | (db2, .error e) => ({ kvy with db := db2 }, .error e)
        | (db2, .ok _) => ({ kvy with db := db2 }, .ok ())

/-- Loop body of Kevery.processReceiptWitness over the attached witness
indexed signatures: skip out-of-range indices, transferable witness
prefixes and own receipts, verify and store the witness indexed
signature. -/
def rctWigers (kvy : Kevery) (pre : Pre) (lserder : Event) (ldig : Dig) :
    Baser → List Siger → Baser × Except Err Unit
  | db, [] => (db, .ok ())
  | db, wiger :: rest =>
    match getVal kvy.kevers pre with
    | none => (db, .error (.value "kever-missing"))
    | some kever =>
      if kever.wits.length ≤ wiger.index then rctWigers kvy pre lserder ldig db rest
      else
        let wit := kever.wits.getD wiger.index ""
        if preTransCode wit then rctWigers kvy pre lserder ldig db rest
        else if kvy.opre.isSome && kvy.opre == some wit &&
                (kvy.opre == some pre || !kvy.locl) then
          rctWigers kvy pre lserder ldig db rest
        else if verifyRawSig wit wiger.raw (serEvent lserder) then
          let db := { db with wigs := addDup db.wigs (pre, ldig) wiger.qb64 }
          rctWigers kvy pre lserder ldig db rest
        else rctWigers kvy pre lserder ldig db rest

/-- Kevery.processReceiptWitness: process one witness receipt message
with attached witness indexed signatures, escrowing them as unverified
witness receipts when the receipted event is not yet accepted. -/
def processReceiptWitness (kvy : Kevery) (now : String) (ev : Event)
    (wigers : List Siger) : Kevery × Except Err Unit :=
  let pre := ev.i
  let sn := ev.s
  match kvy.db.getKeLast pre sn with
  | none =>
    ({ kvy with db := escrowUWReceipt kvy.db now pre sn wigers ev.d },
     .error .unverifiedWitnessReceipt)
  | some ldig =>
    match kvy.db.getEvt pre ldig with
    | none => (kvy, .error (.value "evt-missing"))
    | some lserder =>
      if evDig lserder ≠ ev.d then (kvy, .error (.validation "stale-receipt"))
      else
        match rctWigers kvy pre lserder ldig kvy.db wigers with
        | (db2, .error e) => ({ kvy with db := db2 }, .error e)
        | (db2, .ok _) => ({ kvy with db := db2 }, .ok ())

/-- Kevery.processReceiptCouples: process receipt couples attached
directly to a replayed event message; the event must be the last seen at
its sn (or the one at the attached first-seen ordinal), and each
verifying couple is stored as a witness indexed signature or receipt
couple as in processReceipt. -/
def processReceiptCouples (kvy : Kevery) (now : String) (ev : Event)
    (cigars : List Cigar) (firner : Option Nat) : Kevery × Except Err Unit :=
  let pre := ev.i
  let sn := ev.s
  let ldig? := match firner with
    | some fn => kvy.db.getFe pre fn
    | none => kvy.db.getKeLast pre sn
  match ldig? with
  | none =>
    ({ kvy with db := escrowUReceipt kvy.db now pre sn cigars (evDig ev) },
     .error .unverifiedReceipt)
  | some ldig =>
    if evDig ev ≠ ldig then (kvy, .error (.validation "replay-mismatch"))
    else
      match rctCouples kvy pre ev ldig kvy.db cigars with
      | (db2, .error e) => ({ kvy with db := db2 }, .error e)
      | (db2, .ok _) => ({ kvy with db := db2 }, .ok ())

/- Stream parser.  The byte stream is modelled at token granularity: a
token is a complete serialized message body, a complete CESR primitive or
counter, or a junk byte whose tritet is not a recognized start.  The
transferable receipt attachment groups (quadruples and indexed sig
groups) are outside the embedded fragment; the text and binary count
modes of a counter group carry no content at token granularity. -/

/-- Counter codes of the embedded attachment fragment. -/
inductive CtrCode where
  | controllerIdxSigs
  | witnessIdxSigs
  | nonTransReceiptCouples
  | firstSeenReplayCouples
  | sealSourceCouples
  | attachedMaterialQuadlets
  deriving DecidableEq, Repr

/-- CESR primitives that appear in attachments. -/
inductive Prim where
  | psig (g : Siger)
  | pver (k : Key)
  | pcig (raw : String)
  | pseq (n : Nat)
  | pdig (d : Dig)
  | pdat (ts : String)
  | pctr (code : CtrCode) (count : Nat)
  deriving DecidableEq, Repr

/-- One stream token: a message body, a primitive or counter, or a junk
byte with an unrecognized tritet. -/
inductive Tok where
  | evt (ev : Event)
  | prm (p : Prim)
  | junk
  deriving DecidableEq, Repr

/-- Extraction failures: shortage means the buffer underflowed, anything
else malformed is an extraction error. -/
inductive ExErr where
  | shortage
  | extraction
  deriving DecidableEq, Repr

/-- Extract count indexed signatures. -/
def exSigers : Nat → List Tok → Except ExErr (List Siger × List Tok)
  | 0, ims => .ok ([], ims)
  | n+1, ims =>
    match ims with
    | .prm (.psig g) :: rest =>
      (match exSigers n rest with
       | .ok (gs, rest2) => .ok (g :: gs, rest2)
       | .error e => .error e)
    | [] => .error .shortage
    | _ => .error .extraction

/-- Extract count receipt couples, each a verification key followed by an
unindexed signature. -/
def exCigars : Nat → List Tok → Except ExErr (List Cigar × List Tok)
  | 0, ims => .ok ([], ims)
  | n+1, ims =>
    match ims with
    | .prm (.pver k) :: tl =>
      (match tl with
       | .prm (.pcig raw) :: tl2 =>
         (match exCigars n tl2 with
          | .ok (cs, rest2) => .ok (⟨k, raw⟩ :: cs, rest2)
          | .error e => .error e)
       | [] => .error .shortage
       | _ => .error .extraction)
    | [] => .error .shortage
    | _ => .error .extraction

/-- Extract count first-seen replay couples (ordinal, datetime). -/
def exFrcs : Nat → List Tok → Except ExErr (List (Nat × String) × List Tok)
  | 0, ims => .ok ([], ims)
  | n+1, ims =>
    match ims with
    | .prm (.pseq s) :: tl =>
      (match tl with
       | .prm (.pdat ts) :: tl2 =>
         (match exFrcs n tl2 with
          | .ok (cs, rest2) => .ok ((s, ts) :: cs, rest2)
          | .error e => .error e)
       | [] => .error .shortage
       | _ => .error .extraction)
    | [] => .error .shortage
    | _ => .error .extraction

/-- Extract count seal source couples (sequence number, digest). -/
def exSscs : Nat → List Tok → Except ExErr (List (Nat × Dig) × List Tok)
  | 0, ims => .ok ([], ims)
  | n+1, ims =>
    match ims with
    | .prm (.pseq s) :: tl =>
      (match tl with
       | .prm (.pdig d) :: tl2 =>
         (match exSscs n tl2 with
          | .ok (cs, rest2) => .ok ((s, d) :: cs, rest2)
          | .error e => .error e)
       | [] => .error .shortage
       | _ => .error .extraction)
    | [] => .error .shortage
    | _ => .error .extraction

/-- Accumulated attachments of one message. -/
structure Atts where
  sigers : List Siger
  wigers : List Siger
  cigars : List Cigar
  frcs : List (Nat × String)
  sscs : List (Nat × Dig)
  deriving DecidableEq, Repr

def Atts.empty : Atts :=
  ⟨[], [], [], [], []⟩

/-- Process the contents announced by one attachment counter.  A nested
pipeline counter inside the loop hits the unsupported-count-code branch
of the source, an extraction error. -/
def attGroup (atts : Atts) (code : CtrCode) (count : Nat) (ims : List Tok) :
    Except ExErr (Atts × List Tok) :=
  match code with
  | .controllerIdxSigs =>
    (match exSigers count ims with
     | .ok (gs, rest) => .ok ({ atts with sigers := atts.sigers ++ gs }, rest)
     | .error e => .error e)
  | .witnessIdxSigs =>
    (match exSigers count ims with
     | .ok (gs, rest) => .ok ({ atts with wigers := atts.wigers ++ gs }, rest)
     | .error e => .error e)
  | .nonTransReceiptCouples =>
    (match exCigars count ims with
     | .ok (cs, rest) => .ok ({ atts with cigars := atts.cigars ++ cs }, rest)
     | .error e => .error e)
  | .firstSeenReplayCouples =>
    (match exFrcs count ims with
     | .ok (cs, rest) => .ok ({ atts with frcs := atts.frcs ++ cs }, rest)
     | .error e => .error e)
  | .sealSourceCouples =>
    (match exSscs count ims with
     | .ok (cs, rest) => .ok ({ atts with sscs := atts.sscs ++ cs }, rest)
     | .error e => .error e)
  | .attachedMaterialQuadlets => .error .extraction

/-- The attachment loop of Parser.msgProcessor, entered with the first
counter already extracted.  After each group: in pipelined mode the loop
ends when the group frame is exhausted; in framed mode it ends at frame
end or when the sniff sees a new message; in live mode an empty buffer
means waiting for bytes that never arrive (shortage).  A junk tritet at
the sniff raises a cold-start error inside the extraction try block,
classed as an extraction error here. -/
def attLoop (framed pipelined : Bool) :
    Nat → Atts → CtrCode → Nat → List Tok → Except ExErr (Atts × List Tok)
  | 0, _, _, _, _ => .error .shortage
  | fuel+1, atts, code, count, ims =>
    match attGroup atts code count ims with
    | .error e => .error e
    | .ok (atts2, ims2) =>
      if pipelined then
        (match ims2 with
         | [] => .ok (atts2, ims2)
         | .prm (.pctr c n) :: rest => attLoop framed pipelined fuel atts2 c n rest
         | _ => .error .extraction)
      else if framed then
        (match ims2 with
         | [] => .ok (atts2, ims2)
         | .evt _ :: _ => .ok (atts2, ims2)
         | .junk :: _ => .error .extraction
         | .prm (.pctr c n) :: rest => attLoop framed pipelined fuel atts2 c n rest
         | _ => .error .extraction)
      else
        (match ims2 with
         | [] => .error .shortage
         | .evt _ :: _ => .ok (atts2, ims2)
         | .junk :: _ => .error .extraction
         | .prm (.pctr c n) :: rest => attLoop framed pipelined fuel atts2 c n rest
         | _ => .error .extraction)

/-- Dispatch of one extracted message with its attachments, the tail of
Parser.msgProcessor: key events go to processEvent with only the last
first-seen-replay couple and the last seal-source couple, then any
receipt couples; receipts go to the receipt processors.  An event message
without controller signatures is rejected before dispatch. -/
def msgDispatch (kvy : Kevery) (now : String) (ev : Event) (atts : Atts) :
    Kevery × Except Err Unit :=
  match ev.t with
  | .rct =>
    if atts.cigars = [] ∧ atts.wigers = [] then
      (kvy, .error (.validation "missing-receipt-sigs"))
    else
      (match (if atts.cigars ≠ [] then processReceipt kvy now ev atts.cigars
              else (kvy, .ok ())) with
       | (kvy2, .error e) => (kvy2, .error e)
       | (kvy2, .ok _) =>
         if atts.wigers ≠ [] then processReceiptWitness kvy2 now ev atts.wigers
         else (kvy2, .ok ()))
  | _ =>
    let firner := (atts.frcs.getLast?).map (fun c => c.1)
    let couple := atts.sscs.getLast?
    let seqner := couple.map (fun c => c.1)
    let diger := couple.map (fun c => c.2)
    if atts.sigers = [] then (kvy, .error (.validation "missing-sigs"))
    else
      match processEvent kvy now ev atts.sigers atts.wigers seqner diger with
      | (kvy2, .error e) => (kvy2, .error e)
      | (kvy2, .ok _) =>
        if atts.cigars ≠ [] then processReceiptCouples kvy2 now ev atts.cigars firner
        else (kvy2, .ok ())

/-- The outcome classification of one Parser.msgProcessor run. -/
inductive POut where
  | done
  | starved
  | coldStart
  | extraction
  | sizedGroup
  | dispatchErr (e : Err)
  deriving DecidableEq, Repr

/-- Wrap dispatch as a parser outcome with the remaining stream. -/
def dispatchOutcome (kvy : Kevery) (now : String) (ev : Event) (atts : Atts)
    (rest : List Tok) : POut × Kevery × List Tok :=
  match msgDispatch kvy now ev atts with
  | (kvy2, .ok _) => (.done, kvy2, rest)
  | (kvy2, .error e) => (.dispatchErr e, kvy2, rest)

/-- Parser.msgProcessor: extract one message and its attachments and
dispatch it.  The returned stream is the state of the input buffer after
the in-place deletions the source performs: the message and any
pre-collected pipelined group are consumed where the source consumed
them; on a pipelined extraction error the group is already stripped so
only the group is lost; dispatch errors happen after full extraction. -/
def msgProcessor (kvy : Kevery) (now : String) (framed pipeline : Bool)
    (ims : List Tok) : POut × Kevery × List Tok :=
  match ims with
  | [] => (.starved, kvy, ims)
  | .junk :: _ => (.coldStart, kvy, ims)
  | .prm _ :: _ => (.coldStart, kvy, ims)
  | .evt ev :: ims1 =>
    match ims1 with
    | [] => (.starved, kvy, ims1)
    | .evt _ :: _ => dispatchOutcome kvy now ev Atts.empty ims1
    | .junk :: _ => (.extraction, kvy, ims1)
    | .prm p :: ims2 =>
      match p with
      | .pctr .attachedMaterialQuadlets count =>
        if ims2.length < count then (.starved, kvy, ims2)
        else
          let pims := ims2.take count
          let rest := ims2.drop count
          if pipeline then (.done, kvy, rest)
          else
            (match pims with
             | .prm (.pctr c n) :: grest =>
               (match attLoop framed true (grest.length + 1) Atts.empty c n grest with
                | .ok (atts, _) => dispatchOutcome kvy now ev atts rest
                | .error _ => (.sizedGroup, kvy, rest))
             | _ => (.sizedGroup, kvy, rest))
      | .pctr c n =>
        (match attLoop framed false (ims2.length + 1) Atts.empty c n ims2 with
         | .ok (atts, rest) => dispatchOutcome kvy now ev atts rest
         | .error .shortage => (.starved, kvy, ims2)
         | .error .extraction => (.extraction, kvy, ims2))
      | _ => (.extraction, kvy, ims1)

/-- One iteration of the Parser.allProcessor loop: a sized-group error
keeps the remaining stream, a cold-start or extraction error deletes the
rest of the stream, and any error raised after extraction keeps the
stream. -/
def allStep (kvy : Kevery) (now : String) (framed pipeline : Bool)
    (ims : List Tok) : POut × Kevery × List Tok :=
  match msgProcessor kvy now framed pipeline ims with
  | (.coldStart, kvy2, _) => (.coldStart, kvy2, [])
  | (.extraction, kvy2, _) => (.extraction, kvy2, [])
  | (out, kvy2, rest) => (out, kvy2, rest)

/-- Parser.allProcessor: process messages until the stream is exhausted,
applying the per-error stream recovery of allStep.  A starved parse
blocks the source forever, so the model stops there. -/
def allProcessorGo (now : String) (framed pipeline : Bool) :
    Nat → Kevery → List Tok → Kevery × List Tok
  | 0, kvy, ims => (kvy, ims)
  | fuel+1, kvy, ims =>
    if ims.isEmpty then (kvy, ims)
    else
      match allStep kvy now framed pipeline ims with
      | (.starved, kvy2, rest) => (kvy2, rest)
      | (_, kvy2, rest) => allProcessorGo now framed pipeline fuel kvy2 rest

/- Concrete fixtures: a small identifier lifecycle used to instantiate the
theorems below on closed inputs.  The controller identifier uses the basic
derivation, so its prefix doubles as its first signing key. -/

def thold1 : Sith := .num 1

def icpEv : Event :=
  { i := "Apre", s := 0, t := .icp, p := "", d := "",
    kt := thold1, k := ["Apre"],
    n := some (nxtDigest thold1.limen ["K1"]),
    bt := 0, b := [], br := [], ba := [], c := [], a := [], di := "" }

def sig0 : Siger := ⟨0, sigData "Apre" (serEvent icpEv)⟩

def kvy0 : Kevery :=
  { kevers := [], db := Baser.empty, opre := none, locl := false, direct := true }

def kvy1 : Kevery := (processEvent kvy0 "T0" icpEv [sig0] [] none none).1

def rotEv : Event :=
  { i := "Apre", s := 1, t := .rot, p := evDig icpEv, d := "",
    kt := thold1, k := ["K1"],
    n := some (nxtDigest thold1.limen ["K2"]),
    bt := 0, b := [], br := [], ba := [], c := [], a := [], di := "" }

def rsig0 : Siger := ⟨0, sigData "K1" (serEvent rotEv)⟩

def kvy2 : Kevery := (processEvent kvy1 "T1" rotEv [rsig0] [] none none).1

def ixnEv2 : Event :=
  { i := "Apre", s := 2, t := .ixn, p := evDig rotEv, d := "",
    kt := thold1, k := [], n := none,
    bt := 0, b := [], br := [], ba := [], c := [], a := [], di := "" }

def isig2 : Siger := ⟨0, sigData "K1" (serEvent ixnEv2)⟩

def kvy3 : Kevery := (processEvent kvy2 "T2" ixnEv2 [isig2] [] none none).1

def ixnEv3 : Event :=
  { i := "Apre", s := 3, t := .ixn, p := evDig ixnEv2, d := "",
    kt := thold1, k := [], n := none,
    bt := 0, b := [], br := [], ba := [], c := [], a := [], di := "" }

def isig3 : Siger := ⟨0, sigData "K1" (serEvent ixnEv3)⟩

def kvy4 : Kevery := (processEvent kvy3 "T3" ixnEv3 [isig3] [] none none).1

def stDummy : KeverState :=
  { opre := none, locl := false, pre := "", preTrans := true, sn := 0, dig := "",
    ilk := .icp, tholder := thold1, verfers := [], nexter := none, toad := 0,
    wits := [], cuts := [], adds := [], estOnly := false, doNotDelegate := false,
    lastEst := ⟨0, ""⟩, delegator := none, fn := 0 }

/-- Key state of the fixture identifier after icp, rot, ixn, ixn: at
sn 3, latest event type ixn, last establishment event at sn 1. -/
def stR : KeverState := (getVal kvy4.kevers "Apre").getD stDummy

/-- Key state of the fixture identifier right after inception. -/
def stA : KeverState := (getVal kvy1.kevers "Apre").getD stDummy

/-- Out-of-order rotation fixture at sn 5. -/
def ooRot : Event :=
  { i := "Apre", s := 5, t := .rot, p := evDig ixnEv3, d := "",
    kt := thold1, k := ["K2"],
    n := some (nxtDigest thold1.limen ["K3"]),
    bt := 0, b := [], br := [], ba := [], c := [], a := [], di := "" }

/-- Stale rotation fixture at sn 1, at the last establishment event. -/
def staleRot : Event :=
  { i := "Apre", s := 1, t := .rot, p := evDig icpEv, d := "",
    kt := thold1, k := ["K1"],
    n := some (nxtDigest thold1.limen ["K2"]),
    bt := 0, b := [], br := [], ba := [], c := [], a := [], di := "" }

/-- Recovery rotation fixture at sn 2, superseding the two ixn events. -/
def recRot : Event :=
  { i := "Apre", s := 2, t := .rot, p := evDig rotEv, d := "",
    kt := thold1, k := ["K2"],
    n := some (nxtDigest thold1.limen ["K3"]),
    bt := 0, b := [], br := [], ba := [], c := [], a := [], di := "" }

/-- Rotation revealing the wrong next keys, for the commitment check. -/
def badNxtRot : Event :=
  { i := "Apre", s := 1, t := .rot, p := evDig icpEv, d := "",
    kt := thold1, k := ["KX"],
    n := some (nxtDigest thold1.limen ["K2"]),
    bt := 0, b := [], br := [], ba := [], c := [], a := [], di := "" }

/-- A conflicting rotation at sn 1 with a different digest. -/
def dupRotX : Event :=
  { i := "Apre", s := 1, t := .rot, p := evDig icpEv, d := "",
    kt := thold1, k := ["K1"],
    n := some (nxtDigest thold1.limen ["K9"]),
    bt := 0, b := [], br := [], ba := [], c := [], a := [], di := "" }

/- Witnessed fixtures for the receipt and witness-accounting claims. -/

def icpW : Event :=
  { i := "Aw", s := 0, t := .icp, p := "", d := "",
    kt := thold1, k := ["Aw"],
    n := some (nxtDigest thold1.limen ["K1"]),
    bt := 1, b := ["Bw1"], br := [], ba := [], c := [], a := [], di := "" }

def stW : KeverState :=
  { opre := none, locl := false, pre := "Aw", preTrans := true, sn := 0,
    dig := evDig icpW, ilk := .icp, tholder := thold1, verfers := ["Aw"],
    nexter := some (nxtDigest thold1.limen ["K1"]), toad := 1,
    wits := ["Bw1"], cuts := [], adds := [], estOnly := false,
    doNotDelegate := false, lastEst := ⟨0, evDig icpW⟩, delegator := none, fn := 0 }

def dbW : Baser :=
  { Baser.empty with
    kels := [(("Aw", 0), evDig icpW)],
    evts := [(("Aw", evDig icpW), icpW)] }

def kvyW : Kevery :=
  { kevers := [("Aw", stW)], db := dbW, opre := none, locl := false, direct := true }

/-- Receipt message fixture for the accepted inception event. -/
def rctW : Event :=
  { i := "Aw", s := 0, t := .rct, p := "", d := evDig icpW,
    kt := thold1, k := [], n := none,
    bt := 0, b := [], br := [], ba := [], c := [], a := [], di := "" }

/-- Receipt couple from the listed witness. -/
def cigW : Cigar := ⟨"Bw1", sigData "Bw1" (serEvent icpW)⟩

/-- Receipt couple from a non-transferable receipter not in the witness
list. -/
def cigY : Cigar := ⟨"Bother", sigData "Bother" (serEvent icpW)⟩

/-- Key state with two witnesses for the witness-accounting claim. -/
def stW3 : KeverState :=
  { stW with wits := ["Bw1", "Bw2"], toad := 1 }

/-- Rotation cutting one witness and adding another. -/
def rotW3 : Event :=
  { i := "Aw", s := 1, t := .rot, p := evDig icpW, d := "",
    kt := thold1, k := ["K1"],
    n := some (nxtDigest thold1.limen ["K2"]),
    bt := 1, b := [], br := ["Bw1"], ba := ["Bw3"], c := [], a := [], di := "" }

/-- Key state whose threshold assumes two keys, for the key-list guard. -/
def stB : KeverState :=
  { stDummy with
    pre := "Apre", tholder := .num 2, verfers := ["Apre", "K9"],
    nexter := some (nxtDigest thold1.limen ["K1"]), dig := evDig icpEv }

/-- Rotation shrinking the key list to one key with a one-key threshold. -/
def shrinkRot : Event :=
  { i := "Apre", s := 1, t := .rot, p := evDig icpEv, d := "",
    kt := thold1, k := ["K1"],
    n := some (nxtDigest thold1.limen ["K2"]),
    bt := 0, b := [], br := [], ba := [], c := [], a := [], di := "" }

/- Helper lemmas about the ordered-set operations and the duplicate-set
database writes, shared by the theorems below. -/

theorem odedup_sublist {α : Type} [DecidableEq α] (l : List α) :
    List.Sublist (odedup l) l := by
  induction l with
  | nil => simp [odedup]
  | cons x xs ih =>
    rw [odedup]
    exact List.Sublist.cons₂ x ((List.filter_sublist _).trans ih)

theorem odedup_nodup {α : Type} [DecidableEq α] (l : List α) : (odedup l).Nodup := by
  induction l with
  | nil => simp [odedup]
  | cons x xs ih =>
    rw [odedup]
    refine List.nodup_cons.mpr ⟨?_, ih.filter _⟩
    intro hmem
    have hq := List.of_mem_filter hmem
    simp at hq

theorem odedup_eq_of_length {α : Type} [DecidableEq α] (l : List α)
    (h : (odedup l).length = l.length) : odedup l = l :=
  (odedup_sublist l).eq_of_length h

theorem nodup_of_odedup_length {α : Type} [DecidableEq α] (l : List α)
    (h : (odedup l).length = l.length) : l.Nodup := by
  have h2 := odedup_nodup l
  rwa [odedup_eq_of_length l h] at h2

theorem odedup_eq_self {α : Type} [DecidableEq α] (l : List α) (hnd : l.Nodup) :
    odedup l = l := by
  induction l with
  | nil => simp [odedup]
  | cons x xs ih =>
    rw [odedup]
    rcases List.nodup_cons.mp hnd with ⟨hx, hxs⟩
    rw [ih hxs]
    congr 1
    refine List.filter_eq_self.mpr ?_
    intro a ha
    have hne : a ≠ x := fun he => hx (he ▸ ha)
    simp [hne]

theorem addDup_mem_self {κ α : Type} [DecidableEq κ] [DecidableEq α]
    (l : List (κ × α)) (k : κ) (v : α) : (k, v) ∈ addDup l k v := by
  unfold addDup
  split
  · assumption
  · simp

theorem addDup_mem_mono {κ α : Type} [DecidableEq κ] [DecidableEq α]
    (l : List (κ × α)) (k : κ) (v : α) (x : κ × α) (h : x ∈ l) : x ∈ addDup l k v := by
  unfold addDup
  split
  · exact h
  · exact List.mem_append_left _ h

theorem addDup_of_mem {κ α : Type} [DecidableEq κ] [DecidableEq α]
    (l : List (κ × α)) (k : κ) (v : α) (h : (k, v) ∈ l) : addDup l k v = l := by
  unfold addDup
  rw [if_pos h]

theorem mem_foldl_addDup {κ α β : Type} [DecidableEq κ] [DecidableEq α]
    (k : κ) (enc : β → α) :
    ∀ (gs : List β) (l : List (κ × α)) (x : κ × α), x ∈ l →
      x ∈ gs.foldl (fun l g => addDup l k (enc g)) l := by
  intro gs
  induction gs with
  | nil => intro l x h; exact h
  | cons g rest ih =>
    intro l x h
    exact ih _ _ (addDup_mem_mono _ _ _ _ h)

theorem self_mem_foldl_addDup {κ α β : Type} [DecidableEq κ] [DecidableEq α]
    (k : κ) (enc : β → α) :
    ∀ (gs : List β) (l : List (κ × α)) (g : β), g ∈ gs →
      (k, enc g) ∈ gs.foldl (fun l g => addDup l k (enc g)) l := by
  intro gs
  induction gs with
  | nil => intro l g h; cases h
  | cons g0 rest ih =>
    intro l g h
    rcases List.mem_cons.mp h with h | h
    · subst h
      exact mem_foldl_addDup k enc rest _ _ (addDup_mem_self _ _ _)
    · exact ih _ _ h

/-- Inversion of a successful Kever.rotate: the guards it passed and the
shape of its result. -/
theorem rotate_ok_inv (st : KeverState) (db : Baser) (ev : Event) (r : RotOut)
    (hOk : rotate st db ev = .ok r) :
    st.nexter = some (nxtDigest ev.kt.limen ev.k) ∧
    ev.kt.size ≤ ev.k.length ∧
    (odedup ev.br).length = ev.br.length ∧
    ointer (odedup st.wits) (odedup ev.br) = odedup ev.br ∧
    (odedup ev.ba).length = ev.ba.length ∧
    ointer (odedup ev.br) (odedup ev.ba) = [] ∧
    ointer (odedup st.wits) (odedup ev.ba) = [] ∧
    r = ⟨ev.kt, ev.bt, ounion (odiff (odedup st.wits) (odedup ev.br)) (odedup ev.ba),
         ev.br, ev.ba⟩ := by
  rw [rotate] at hOk
  cases hW : rotateWindow st db ev with
  | error e => rw [hW] at hOk; simp at hOk
  | ok u =>
    rw [hW] at hOk
    simp only [] at hOk
    rcases hNx : st.nexter with _ | nxt
    · rw [hNx] at hOk; simp at hOk
    · rw [hNx] at hOk
      simp only [] at hOk
      by_cases h1 : ev.k.length < ev.kt.size
      · rw [if_pos h1] at hOk; simp at hOk
      · rw [if_neg h1] at hOk
        by_cases h2 : nxtDigest ev.kt.limen ev.k ≠ nxt
        · rw [if_pos h2] at hOk; simp at hOk
        · rw [if_neg h2] at hOk
          by_cases h3 : (odedup ev.br).length ≠ ev.br.length
          · rw [if_pos h3] at hOk; simp at hOk
          · rw [if_neg h3] at hOk
            by_cases h4 : ointer (odedup st.wits) (odedup ev.br) ≠ odedup ev.br
            · rw [if_pos h4] at hOk; simp at hOk
            · rw [if_neg h4] at hOk
              by_cases h5 : (odedup ev.ba).length ≠ ev.ba.length
              · rw [if_pos h5] at hOk; simp at hOk
              · rw [if_neg h5] at hOk
                by_cases h6 : ointer (odedup ev.br) (odedup ev.ba) ≠ []
                · rw [if_pos h6] at hOk; simp at hOk
                · rw [if_neg h6] at hOk
                  by_cases h7 : ointer (odedup st.wits) (odedup ev.ba) ≠ []
                  · rw [if_pos h7] at hOk; simp at hOk
                  · rw [if_neg h7] at hOk
                    by_cases h8 : (ounion (odiff (odedup st.wits) (odedup ev.br)) (odedup ev.ba)).length =
                        (st.wits.length : Int) - (ev.br.length : Int) + (ev.ba.length : Int)
                    · rw [if_neg (by simpa using h8)] at hOk
                      have hr : r = ⟨ev.kt, ev.bt,
                          ounion (odiff (odedup st.wits) (odedup ev.br)) (odedup ev.ba),
                          ev.br, ev.ba⟩ := by
                        by_cases h9 : ounion (odiff (odedup st.wits) (odedup ev.br)) (odedup ev.ba) ≠ []
                        · rw [if_pos h9] at hOk
                          by_cases h10 : ev.bt < 1 ∨ ev.bt > (ounion (odiff (odedup st.wits) (odedup ev.br)) (odedup ev.ba)).length
                          · rw [if_pos h10] at hOk; simp at hOk
                          · rw [if_neg h10] at hOk
                            exact (Except.ok.injEq _ _ ▸ hOk).symm ▸ rfl
                        · rw [if_neg h9] at hOk
                          by_cases h10 : ev.bt ≠ 0
                          · rw [if_pos h10] at hOk; simp at hOk
                          · rw [if_neg h10] at hOk
                            exact (Except.ok.injEq _ _ ▸ hOk).symm ▸ rfl
                      exact ⟨congrArg some (not_not.mp h2).symm, by omega, not_not.mp h3,
                             not_not.mp h4, not_not.mp h5, not_not.mp h6, not_not.mp h7, hr⟩
                    · rw [if_pos (by simpa using h8)] at hOk; simp at hOk

/-- A non-delegated event type passes delegation validation with no
delegator and no state change. -/
theorem validateDelegation_not_delegated (st : KeverState) (db : Baser)
    (kevers : List (Pre × KeverState)) (now : String) (ev : Event)
    (sigers wigers : List Siger) (seqner : Option Nat) (diger : Option Dig)
    (h : ev.t ≠ .dip ∧ ev.t ≠ .drt) :
    validateDelegation st db kevers now ev sigers wigers seqner diger = (db, .ok none) := by
  rw [validateDelegation, if_pos h]

/-- Kever.logEvent with first false returns no ordinal, leaves the
first-seen log untouched, leaves the KEL untouched when the current state
entry is already present, and adds every given signature to the stored
signature sets at the current state digest. -/
theorem logEvent_not_first (st : KeverState) (db : Baser) (now : String) (ev : Event)
    (vs ws : List Siger) :
    (logEvent st db now ev vs ws false none none).1 = none ∧
    (logEvent st db now ev vs ws false none none).2.fels = db.fels ∧
    (((st.pre, st.sn), st.dig) ∈ db.kels →
      (logEvent st db now ev vs ws false none none).2.kels = db.kels) ∧
    (∀ g ∈ vs, ((st.pre, st.dig), Siger.qb64 g) ∈
      (logEvent st db now ev vs ws false none none).2.sigs) ∧
    (∀ g ∈ ws, ((st.pre, st.dig), Siger.qb64 g) ∈
      (logEvent st db now ev vs ws false none none).2.wigs) := by
  refine ⟨rfl, ?_, ?_, ?_, ?_⟩
  · simp only [logEvent, Bool.false_eq_true, if_false]
    split <;> split <;> rfl
  · intro hmem
    simp only [logEvent, Bool.false_eq_true, if_false]
    split <;> split <;> exact addDup_of_mem _ _ _ hmem
  · intro g hg
    have hvs : vs ≠ [] := by rintro rfl; cases hg
    simp only [logEvent, Bool.false_eq_true, if_false]
    rw [if_pos hvs]
    split <;> exact self_mem_foldl_addDup _ _ vs _ g hg
  · intro g hg
    have hws : ws ≠ [] := by rintro rfl; cases hg
    simp only [logEvent, Bool.false_eq_true, if_false]
    rw [if_pos hws]
    split <;> exact self_mem_foldl_addDup _ _ ws _ g hg

/-- C1: for a rotation (rot or drt) applied to an existing key state, a
sequence number beyond current plus one is escrowed out of order and
rejected with an out-of-order error at the Kevery dispatch; at or below
the last establishment sequence number the rotation is rejected as stale
by Kever.rotate; and strictly between, the rotation passes the recovery
window only when the latest state event type is ixn and the digest of the
stored KEL event at sn minus one matches the p field, otherwise it is
rejected. -/
theorem c1_rotation_sn_window
    (kvy : Kevery) (now : String) (st : KeverState) (db : Baser) (ev : Event)
    (sigers wigers : List Siger) (seqner : Option Nat) (diger : Option Dig)
    (hIlk : ev.t = .rot ∨ ev.t = .drt) :
    ((getVal kvy.kevers ev.i = some st) →
     ((kvy.opre.isSome && kvy.locl && !(kvy.opre == some ev.i)) = false) →
     ((kvy.opre.isSome && !kvy.locl && kvy.opre == some ev.i) = false) →
     ev.s > st.sn + 1 →
     processEvent kvy now ev sigers wigers seqner diger =
       ({ kvy with db := escrowOOEvent kvy.db now ev sigers seqner diger },
        .error .outOfOrder))
    ∧
    (ev.s ≤ st.sn → ev.s ≤ st.lastEst.s →
     rotate st db ev = .error (.validation "stale"))
    ∧
    (st.lastEst.s < ev.s → ev.s ≤ st.sn →
     ((st.ilk ≠ .ixn → rotate st db ev = .error (.validation "recovery-ilk")) ∧
      (st.ilk = .ixn → ∀ pdig pev, db.getKeLast ev.i (ev.s - 1) = some pdig →
        db.getEvt ev.i pdig = some pev → evDig pev ≠ ev.p →
        rotate st db ev = .error (.validation "recovery-prior")) ∧
      (∀ r, rotate st db ev = .ok r →
        st.ilk = .ixn ∧
        ∃ pdig pev, db.getKeLast ev.i (ev.s - 1) = some pdig ∧
          db.getEvt ev.i pdig = some pev ∧ evDig pev = ev.p))) := by
  refine ⟨?_, ?_, ?_⟩
  · intro hK hOp1 hOp2 hSn
    have hIcp : ¬ (ev.t = .icp ∨ ev.t = .dip) := by
      rcases hIlk with h | h <;> simp [h]
    simp only [processEvent, hOp1, hOp2, hK, Bool.false_eq_true, if_false]
    rw [if_neg hIcp, if_pos hSn]
  · intro h1 h2
    have hgt : ¬ ev.s > st.sn + 1 := by omega
    simp [rotate, rotateWindow, hgt, h1, h2]
  · intro hLo hHi
    have hgt : ¬ ev.s > st.sn + 1 := by omega
    have hst : ¬ ev.s ≤ st.lastEst.s := by omega
    refine ⟨?_, ?_, ?_⟩
    · intro hIxn
      simp [rotate, rotateWindow, hgt, hHi, hst, hIxn]
    · intro hIxn pdig pev hKe hEv hNe
      simp [rotate, rotateWindow, hgt, hHi, hst, hIxn, hKe, hEv, hNe]
    · intro r hOk
      by_cases hIxn : st.ilk = .ixn
      · refine ⟨hIxn, ?_⟩
        rcases hKe : db.getKeLast ev.i (ev.s - 1) with _ | pdig
        · exfalso
          simp [rotate, rotateWindow, hgt, hHi, hst, hIxn, hKe] at hOk
        · rcases hEv : db.getEvt ev.i pdig with _ | pev
          · exfalso
            simp [rotate, rotateWindow, hgt, hHi, hst, hIxn, hKe, hEv] at hOk
          · refine ⟨pdig, pev, rfl, hEv, ?_⟩
            by_contra hNe
            simp [rotate, rotateWindow, hgt, hHi, hst, hIxn, hKe, hEv, hNe] at hOk
      · exfalso
        simp [rotate, rotateWindow, hgt, hHi, hst, hIxn] at hOk

/-- Witness for C1 on the fixture lifecycle: an sn 5 rotation after an
sn 3 state is escrowed out of order, an sn 1 rotation is stale, and the
sn 2 recovery rotation passes the window over the ixn state with a
matching prior digest. -/
theorem c1_rotation_sn_window_witness :
    (processEvent kvy4 "T4" ooRot [⟨0, "x"⟩] [] none none =
      ({ kvy4 with db := escrowOOEvent kvy4.db "T4" ooRot [⟨0, "x"⟩] none none },
       .error .outOfOrder)) ∧
    rotate stR kvy4.db staleRot = .error (.validation "stale") ∧
    (stR.ilk = .ixn ∧
     ∃ pdig pev, kvy4.db.getKeLast recRot.i (recRot.s - 1) = some pdig ∧
       kvy4.db.getEvt recRot.i pdig = some pev ∧ evDig pev = recRot.p) := by
  refine ⟨?_, ?_, ?_⟩
  · exact (c1_rotation_sn_window kvy4 "T4" stR kvy4.db ooRot [⟨0, "x"⟩] [] none none
      (Or.inl rfl)).1 (by decide) (by decide) (by decide) (by decide)
  · exact (c1_rotation_sn_window kvy4 "T4" stR kvy4.db staleRot [] [] none none
      (Or.inl rfl)).2.1 (by decide) (by decide)
  · exact ((c1_rotation_sn_window kvy4 "T4" stR kvy4.db recRot [] [] none none
      (Or.inl rfl)).2.2 (by decide) (by decide)).2.2 ⟨thold1, 0, [], [], []⟩ (by decide)

/-- C2: every rotation accepted by Kever.rotate reveals a threshold and
key list whose recomputed commitment digest equals the nexter recorded
from the prior establishment event; a mismatching rotation is rejected
with a validation error by Kever.rotate and by Kever.update, which then
leaves the database unchanged and produces no new key state. -/
theorem c2_next_key_binding (st : KeverState) (db : Baser)
    (kevers : List (Pre × KeverState)) (now : String) (ev : Event)
    (sigers wigers : List Siger) :
    (∀ r, rotate st db ev = .ok r →
       st.nexter = some (nxtDigest ev.kt.limen ev.k))
    ∧
    (ev.s = st.sn + 1 → ev.p = st.dig →
     ∀ nxt, st.nexter = some nxt → nxt ≠ nxtDigest ev.kt.limen ev.k →
     ev.kt.size ≤ ev.k.length →
     rotate st db ev = .error (.validation "nxt"))
    ∧
    (ev.t = .rot → st.transferable = true → ev.i = st.pre → 1 ≤ ev.s →
     st.delegator = none →
     ev.s = st.sn + 1 → ev.p = st.dig →
     ∀ nxt, st.nexter = some nxt → nxt ≠ nxtDigest ev.kt.limen ev.k →
     ev.kt.size ≤ ev.k.length →
     update st db kevers now ev sigers wigers none none =
       (db, .error (.validation "nxt"))) := by
  have hpart2 : ev.s = st.sn + 1 → ev.p = st.dig →
      ∀ nxt, st.nexter = some nxt → nxt ≠ nxtDigest ev.kt.limen ev.k →
      ev.kt.size ≤ ev.k.length →
      rotate st db ev = .error (.validation "nxt") := by
    intro hs hp nxt hnx hne hsz
    have hW : rotateWindow st db ev = .ok () := by
      have hgt : ¬ ev.s > st.sn + 1 := by omega
      have hle : ¬ ev.s ≤ st.sn := by omega
      have hdig : ¬ st.dig ≠ ev.p := by simp [hp]
      simp [rotateWindow, hgt, hle, hdig]
    rw [rotate, hW]
    simp only [hnx]
    rw [if_neg (by omega)]
    rw [if_pos (by simp [Ne.symm hne] : nxtDigest ev.kt.limen ev.k ≠ nxt)]
  refine ⟨?_, hpart2, ?_⟩
  · intro r hOk
    exact (rotate_ok_inv st db ev r hOk).1
  · intro hIlk hTr hPre hSn hDel hs hp nxt hnx hne hsz
    have hrot := hpart2 hs hp nxt hnx hne hsz
    rw [update]
    rw [if_neg (by simp [hTr])]
    rw [if_neg (by simp [hPre])]
    rw [if_neg (by omega)]
    rw [if_pos (Or.inl hIlk)]
    rw [if_neg (by simp [hDel])]
    rw [hrot]

/-- Witness for C2: the accepted fixture rotation matches the inception
commitment, and a rotation revealing the wrong keys is rejected by update
without changing the database. -/
theorem c2_next_key_binding_witness :
    stA.nexter = some (nxtDigest rotEv.kt.limen rotEv.k) ∧
    update stA kvy1.db kvy1.kevers "T9" badNxtRot [] [] none none =
      (kvy1.db, .error (.validation "nxt")) := by
  constructor
  · exact (c2_next_key_binding stA kvy1.db kvy1.kevers "T9" rotEv [] []).1
      ⟨thold1, 0, [], [], []⟩ (by decide)
  · exact (c2_next_key_binding stA kvy1.db kvy1.kevers "T9" badNxtRot [] []).2.2
      rfl (by decide) (by decide) (by decide) (by decide) (by decide) (by decide)
      (nxtDigest thold1.limen ["K1"]) (by decide) (by decide) (by decide)

/-- C3: a rotation accepted by Kever.rotate over a duplicate-free witness
roster has duplicate-free cuts and adds, cuts contained in the previous
witness list, cuts disjoint from adds, previous witnesses disjoint from
adds, and produces the witness list obtained by deleting the cuts in
place and appending the adds; a rotation violating any of these set
conditions is rejected. -/
theorem c3_witness_accounting (st : KeverState) (db : Baser) (ev : Event)
    (hN : st.wits.Nodup) :
    (∀ r, rotate st db ev = .ok r →
      ev.br.Nodup ∧ ev.ba.Nodup ∧
      (∀ c ∈ ev.br, c ∈ st.wits) ∧
      (∀ x ∈ ev.br, x ∉ ev.ba) ∧
      (∀ x ∈ st.wits, x ∉ ev.ba) ∧
      r.wits = st.wits.filter (fun w => w ∉ ev.br) ++ ev.ba)
    ∧
    (¬ (ev.br.Nodup ∧ ev.ba.Nodup ∧
        (∀ c ∈ ev.br, c ∈ st.wits) ∧
        (∀ x ∈ ev.br, x ∉ ev.ba) ∧
        (∀ x ∈ st.wits, x ∉ ev.ba)) →
      ∃ e, rotate st db ev = .error e) := by
  have hmain : ∀ r, rotate st db ev = .ok r →
      ev.br.Nodup ∧ ev.ba.Nodup ∧
      (∀ c ∈ ev.br, c ∈ st.wits) ∧
      (∀ x ∈ ev.br, x ∉ ev.ba) ∧
      (∀ x ∈ st.wits, x ∉ ev.ba) ∧
      r.wits = st.wits.filter (fun w => w ∉ ev.br) ++ ev.ba := by
    intro r hOk
    obtain ⟨-, -, h3, h4, h5, h6, h7, hr⟩ := rotate_ok_inv st db ev r hOk
    have hbr : ev.br.Nodup := nodup_of_odedup_length _ h3
    have hba : ev.ba.Nodup := nodup_of_odedup_length _ h5
    have ebr : odedup ev.br = ev.br := odedup_eq_self _ hbr
    have eba : odedup ev.ba = ev.ba := odedup_eq_self _ hba
    have ew : odedup st.wits = st.wits := odedup_eq_self _ hN
    rw [ebr, ew] at h4
    rw [ebr, eba] at h6
    rw [ew, eba] at h7
    have hsub : ∀ c ∈ ev.br, c ∈ st.wits := by
      intro c hc
      have hm : c ∈ ointer st.wits ev.br := by rw [h4]; exact hc
      exact (List.mem_filter.mp hm).1
    have hdisj1 : ∀ x ∈ ev.br, x ∉ ev.ba := by
      intro x hx hxba
      have hm : x ∈ ointer ev.br ev.ba := List.mem_filter.mpr ⟨hx, by simpa using hxba⟩
      rw [h6] at hm
      simp at hm
    have hdisj2 : ∀ x ∈ st.wits, x ∉ ev.ba := by
      intro x hx hxba
      have hm : x ∈ ointer st.wits ev.ba := List.mem_filter.mpr ⟨hx, by simpa using hxba⟩
      rw [h7] at hm
      simp at hm
    refine ⟨hbr, hba, hsub, hdisj1, hdisj2, ?_⟩
    rw [hr]
    show ounion (odiff (odedup st.wits) (odedup ev.br)) (odedup ev.ba) = _
    rw [ew, ebr, eba]
    unfold ounion odiff
    congr 1
    refine List.filter_eq_self.mpr ?_
    intro a ha
    have h1 : a ∉ st.wits := fun hmem => hdisj2 a hmem ha
    simp [h1]
  refine ⟨hmain, ?_⟩
  intro hviol
  cases hR : rotate st db ev with
  | error e => exact ⟨e, rfl⟩
  | ok r =>
    obtain ⟨hbr, hba, hs, hd1, hd2, -⟩ := hmain r hR
    exact absurd ⟨hbr, hba, hs, hd1, hd2⟩ hviol

/-- Witness for C3: a rotation cutting one of two witnesses and adding a
third yields the expected roster, and a rotation with duplicate cuts is
rejected. -/
theorem c3_witness_accounting_witness :
    (rotW3.br.Nodup ∧ rotW3.ba.Nodup ∧
     (∀ c ∈ rotW3.br, c ∈ stW3.wits) ∧
     (∀ x ∈ rotW3.br, x ∉ rotW3.ba) ∧
     (∀ x ∈ stW3.wits, x ∉ rotW3.ba) ∧
     (RotOut.mk thold1 1 ["Bw2", "Bw3"] ["Bw1"] ["Bw3"]).wits =
       stW3.wits.filter (fun w => w ∉ rotW3.br) ++ rotW3.ba) ∧
    (∃ e, rotate stW3 Baser.empty
      { rotW3 with br := ["Bw1", "Bw1"], ba := [] } = .error e) := by
  constructor
  · exact (c3_witness_accounting stW3 Baser.empty rotW3 (by decide)).1
      ⟨thold1, 1, ["Bw2", "Bw3"], ["Bw1"], ["Bw3"]⟩ (by decide)
  · exact (c3_witness_accounting stW3 Baser.empty
      { rotW3 with br := ["Bw1", "Bw1"], ba := [] } (by decide)).2 (by decide)

/-- C4: for a non-delegated event with in-range signature indexes, if at
least one controller signature verifies but the threshold is unmet, the
event is written to the partially signed escrow and a missing-signature
error is raised; if the threshold is met but witness validation applies
and fewer verified witness signatures than toad are present, the event is
written to the partially witnessed escrow and a missing-witness-signature
error is raised; and if no controller signature verifies a plain
validation error is raised with the database unchanged. -/
theorem c4_partial_escrow (st : KeverState) (db : Baser)
    (kevers : List (Pre × KeverState)) (now : String) (ev : Event)
    (sigers : List Siger) (verfers : List Key) (tholder : Sith)
    (wigers : List Siger) (toad : Nat) (wits : List Pre)
    (vsigers : List Siger) (indices : List Nat)
    (vwigers : List Siger) (windices : List Nat)
    (hsz : st.tholder.size ≤ verfers.length)
    (hvs : verifySigs (serEvent ev) sigers verfers = .ok (vsigers, indices))
    (hws : verifySigs (serEvent ev) wigers wits = .ok (vwigers, windices))
    (hnd : ev.t ≠ .dip ∧ ev.t ≠ .drt) :
    (indices ≠ [] → tholder.satisfy indices = false →
      valSigsDelWigs st db kevers now ev sigers verfers tholder wigers toad wits none none =
        (escrowPSEvent db now ev vsigers vwigers, .error .missingSignature))
    ∧
    (indices ≠ [] → tholder.satisfy indices = true →
     ((!wits.isEmpty && st.opre.isNone) ||
      (!wits.isEmpty && !st.locl && st.opre.isSome &&
       !(wits.contains (st.opre.getD "")))) = true →
     toad ≤ wits.length →
     windices.length < toad →
     valSigsDelWigs st db kevers now ev sigers verfers tholder wigers toad wits none none =
       (escrowPWEvent db now ev vwigers vsigers, .error .missingWitnessSignature))
    ∧
    (indices = [] →
     valSigsDelWigs st db kevers now ev sigers verfers tholder wigers toad wits none none =
       (db, .error (.validation "no-sigs"))) := by
  refine ⟨?_, ?_, ?_⟩
  · intro hni hsat
    rw [valSigsDelWigs, if_neg (by omega), hvs, hws]
    simp only []
    rw [if_neg hni, if_pos (by simp [hsat])]
  · intro hni hsat hreq htoad hwind
    rw [valSigsDelWigs, if_neg (by omega), hvs, hws]
    simp only []
    rw [if_neg hni, if_neg (by simp [hsat])]
    rw [validateDelegation_not_delegated st db kevers now ev vsigers vwigers none none hnd]
    simp only []
    rw [if_pos hreq, if_neg (by omega), if_pos hwind]
  · intro hni
    rw [valSigsDelWigs, if_neg (by omega), hvs, hws]
    simp only []
    rw [if_pos hni]

/-- Witness for C4: a one-of-one signature under a two-of-two threshold
is escrowed partially signed; a satisfied signing threshold with a
witness roster and no witness signatures is escrowed partially witnessed;
and no verified signature at all is a plain rejection with the database
unchanged. -/
theorem c4_partial_escrow_witness :
    (valSigsDelWigs stDummy Baser.empty [] "T0" icpEv [sig0] ["Apre", "K9"]
        (.num 2) [] 0 [] none none =
      (escrowPSEvent Baser.empty "T0" icpEv [sig0] [], .error .missingSignature)) ∧
    (valSigsDelWigs stDummy Baser.empty [] "T0" icpEv [sig0] ["Apre", "K9"]
        thold1 [] 1 ["Bw1"] none none =
      (escrowPWEvent Baser.empty "T0" icpEv [] [sig0], .error .missingWitnessSignature)) ∧
    (valSigsDelWigs stDummy Baser.empty [] "T0" icpEv [⟨0, "bad"⟩] ["Apre", "K9"]
        thold1 [] 0 [] none none =
      (Baser.empty, .error (.validation "no-sigs"))) := by
  refine ⟨?_, ?_, ?_⟩
  · exact (c4_partial_escrow stDummy Baser.empty [] "T0" icpEv [sig0] ["Apre", "K9"]
      (.num 2) [] 0 [] [sig0] [0] [] [] (by decide) (by decide) (by decide)
      (by decide)).1 (by decide) (by decide)
  · exact (c4_partial_escrow stDummy Baser.empty [] "T0" icpEv [sig0] ["Apre", "K9"]
      thold1 [] 1 ["Bw1"] [sig0] [0] [] [] (by decide) (by decide) (by decide)
      (by decide)).2.1 (by decide) (by decide) (by decide) (by decide) (by decide)
  · exact (c4_partial_escrow stDummy Baser.empty [] "T0" icpEv [⟨0, "bad"⟩] ["Apre", "K9"]
      thold1 [] 0 [] [] [] [] [] (by decide) (by decide) (by decide)
      (by decide)).2.2 (by decide)

/-- C8 (implicit): the key-list-length guard of valSigsDelWigs reads the
threshold of the pre-event key state rather than the tholder argument, so
any call with a key list shorter than the state threshold size is
rejected; consequently a rotation can only be accepted by Kever.update
when its new key list is at least as long as the prior threshold size,
even when its own threshold is satisfiable. -/
theorem c8_tholder_guard (st : KeverState) (db : Baser)
    (kevers : List (Pre × KeverState)) (now : String) (ev : Event)
    (sigers : List Siger) (verfers : List Key) (tholder : Sith)
    (wigers : List Siger) (toad : Nat) (wits : List Pre)
    (seqner : Option Nat) (diger : Option Dig) :
    (verfers.length < st.tholder.size →
     valSigsDelWigs st db kevers now ev sigers verfers tholder wigers toad wits seqner diger =
       (db, .error (.validation "sith")))
    ∧
    ((ev.t = .rot ∨ ev.t = .drt) →
     ∀ db2 res, update st db kevers now ev sigers wigers none none = (db2, .ok res) →
       st.tholder.size ≤ ev.k.length) := by
  constructor
  · intro h
    rw [valSigsDelWigs, if_pos h]
  · intro hIlk db2 res hUp
    rw [update] at hUp
    by_cases h1 : ¬ st.transferable
    · rw [if_pos h1] at hUp; simp at hUp
    · rw [if_neg h1] at hUp
      by_cases h2 : ev.i ≠ st.pre
      · rw [if_pos h2] at hUp; simp at hUp
      · rw [if_neg h2] at hUp
        by_cases h3 : ev.s < 1
        · rw [if_pos h3] at hUp; simp at hUp
        · rw [if_neg h3] at hUp
          rw [if_pos hIlk] at hUp
          by_cases h4 : (st.delegator.isSome && !(ev.t == .drt)) = true
          · rw [if_pos h4] at hUp; simp at hUp
          · rw [if_neg h4] at hUp
            cases hR : rotate st db ev with
            | error e => rw [hR] at hUp; simp at hUp
            | ok ro =>
              rw [hR] at hUp
              simp only [] at hUp
              by_cases h5 : ev.k.length < st.tholder.size
              · exfalso
                have hv : valSigsDelWigs st db kevers now ev sigers ev.k ro.tholder
                    wigers ro.toad ro.wits none none = (db, .error (.validation "sith")) := by
                  rw [valSigsDelWigs, if_pos h5]
                rw [hv] at hUp
                simp at hUp
              · omega

/-- Witness for C8: an empty key list under a one-key state threshold is
rejected regardless of the tholder argument, and the shrinking rotation
fixture passes Kever.rotate under its own satisfiable threshold yet is
rejected by Kever.update through the state-threshold guard. -/
theorem c8_tholder_guard_witness :
    (valSigsDelWigs stDummy Baser.empty [] "T0" icpEv [] [] (.num 0) [] 0 []
        none none = (Baser.empty, .error (.validation "sith"))) ∧
    rotate stB Baser.empty shrinkRot =
      .ok ⟨thold1, 0, [], [], []⟩ ∧
    shrinkRot.kt.size ≤ shrinkRot.k.length ∧
    update stB Baser.empty [] "T0" shrinkRot [] [] none none =
      (Baser.empty, .error (.validation "sith")) := by
  refine ⟨?_, by decide, by decide, by decide⟩
  exact (c8_tholder_guard stDummy Baser.empty [] "T0" icpEv [] [] (.num 0) [] 0 []
    none none).1 (by decide)

/-- C5: an event arriving at an already occupied (identifier, sn) slot of
the accepted KEL is escrowed likely duplicitous and rejected when its
digest differs from the accepted event there (for repeat inceptions and
for rot, drt and ixn below the in-order window alike); when the digest
matches, processing is idempotent: it succeeds, logging the newly
verified signatures through Kever.logEvent with first false, which
returns no ordinal, leaves the first-seen log untouched, leaves the KEL
untouched when the state entry is present, and adds each verified
signature to the stored signature sets. -/
theorem c5_duplicity (kvy : Kevery) (now : String) (ev : Event)
    (sigers wigers : List Siger) (seqner : Option Nat) (diger : Option Dig)
    (st : KeverState) (ddig : Dig)
    (hOp1 : (kvy.opre.isSome && kvy.locl && !(kvy.opre == some ev.i)) = false)
    (hOp2 : (kvy.opre.isSome && !kvy.locl && kvy.opre == some ev.i) = false)
    (hK : getVal kvy.kevers ev.i = some st) :
    ((ev.t = .rot ∨ ev.t = .drt ∨ ev.t = .ixn) →
     ¬ ev.s > st.sn + 1 →
     ¬ (ev.s = st.sn + 1 ∨
        ((ev.t = .rot ∨ ev.t = .drt) ∧ st.lastEst.s < ev.s ∧ ev.s ≤ st.sn + 1)) →
     kvy.db.getKeLast ev.i ev.s = some ddig →
     ((ddig ≠ evDig ev →
       processEvent kvy now ev sigers wigers seqner diger =
         ({ kvy with db := escrowLDEvent kvy.db now ev sigers },
          .error .likelyDuplicitous)) ∧
      (ddig = evDig ev → ∀ eserder vsigers is0 vwigers ws0,
       fetchEstEvent kvy.db ev.i ev.s = some eserder →
       verifySigs (serEvent ev) sigers eserder.k = .ok (vsigers, is0) →
       (eserder.s = st.lastEst.s ∧ evDig eserder = st.lastEst.d) →
       verifySigs (serEvent ev) wigers st.wits = .ok (vwigers, ws0) →
       processEvent kvy now ev sigers wigers seqner diger =
         (if vsigers ≠ [] ∨ vwigers ≠ [] then
            ({ kvy with db := (logEvent st kvy.db now ev vsigers vwigers false none none).2 }, .ok ())
          else (kvy, .ok ())))))
    ∧
    (ev.t = .icp → ev.s = 0 →
     ∀ eserder, fetchEstEvent kvy.db ev.i 0 = some eserder →
     evDig eserder ≠ evDig ev →
     processEvent kvy now ev sigers wigers seqner diger =
       ({ kvy with db := escrowLDEvent kvy.db now ev sigers },
        .error .likelyDuplicitous))
    ∧
    (∀ (db : Baser) (vs ws : List Siger),
      (logEvent st db now ev vs ws false none none).1 = none ∧
      (logEvent st db now ev vs ws false none none).2.fels = db.fels ∧
      (((st.pre, st.sn), st.dig) ∈ db.kels →
        (logEvent st db now ev vs ws false none none).2.kels = db.kels) ∧
      (∀ g ∈ vs, ((st.pre, st.dig), Siger.qb64 g) ∈
        (logEvent st db now ev vs ws false none none).2.sigs) ∧
      (∀ g ∈ ws, ((st.pre, st.dig), Siger.qb64 g) ∈
        (logEvent st db now ev vs ws false none none).2.wigs)) := by
  refine ⟨?_, ?_, ?_⟩
  · intro hIlkN hsn1 hsn2 hdd
    have hIcp : ¬ (ev.t = .icp ∨ ev.t = .dip) := by
      rcases hIlkN with h | h | h <;> simp [h]
    constructor
    · intro hne
      simp only [processEvent, hOp1, hOp2, hK, Bool.false_eq_true, if_false]
      rw [if_neg hIcp, if_neg hsn1, if_neg hsn2, hdd]
      simp only []
      rw [if_neg hne]
    · intro heq eserder vsigers is0 vwigers ws0 hfe hvs hest hws
      simp only [processEvent, hOp1, hOp2, hK, Bool.false_eq_true, if_false]
      rw [if_neg hIcp, if_neg hsn1, if_neg hsn2, hdd]
      simp only []
      rw [if_pos heq, hfe]
      simp only []
      rw [hvs]
      simp only []
      rw [if_pos hest, hws]
  · intro hIlk hSn eserder hfe hne
    have hIcp : ev.t = .icp ∨ ev.t = .dip := Or.inl hIlk
    simp only [processEvent, hOp1, hOp2, hK, Bool.false_eq_true, if_false]
    rw [if_pos hIcp, if_neg (by simp [hSn]), hSn, hfe]
    simp only []
    rw [if_neg hne]
  · intro db vs ws
    exact logEvent_not_first st db now ev vs ws

/-- Witness for C5: a conflicting rotation at the occupied sn 1 slot is
escrowed likely duplicitous, the exact duplicate of the accepted sn 1
rotation is processed idempotently, and the first-seen log is untouched
with the duplicate signature landing in the stored signature set. -/
theorem c5_duplicity_witness :
    (processEvent kvy4 "T5" dupRotX [⟨0, "y"⟩] [] none none =
      ({ kvy4 with db := escrowLDEvent kvy4.db "T5" dupRotX [⟨0, "y"⟩] },
       .error .likelyDuplicitous)) ∧
    (processEvent kvy4 "T5" rotEv [rsig0] [] none none =
      (if [rsig0] ≠ ([] : List Siger) ∨ ([] : List Siger) ≠ [] then
         ({ kvy4 with db := (logEvent stR kvy4.db "T5" rotEv [rsig0] [] false none none).2 }, .ok ())
       else (kvy4, .ok ()))) ∧
    (logEvent stR kvy4.db "T5" rotEv [rsig0] [] false none none).1 = none ∧
    (logEvent stR kvy4.db "T5" rotEv [rsig0] [] false none none).2.fels = kvy4.db.fels ∧
    (∀ g ∈ [rsig0], ((stR.pre, stR.dig), Siger.qb64 g) ∈
      (logEvent stR kvy4.db "T5" rotEv [rsig0] [] false none none).2.sigs) := by
  refine ⟨?_, ?_, ?_, ?_, ?_⟩
  · exact ((c5_duplicity kvy4 "T5" dupRotX [⟨0, "y"⟩] [] none none stR (evDig rotEv)
      (by decide) (by decide) (by decide)).1 (Or.inl rfl) (by decide) (by decide)
      (by decide)).1 (by decide)
  · exact ((c5_duplicity kvy4 "T5" rotEv [rsig0] [] none none stR (evDig rotEv)
      (by decide) (by decide) (by decide)).1 (Or.inl rfl) (by decide) (by decide)
      (by decide)).2 rfl rotEv [rsig0] [0] [] [] (by decide) (by decide)
      (by decide) (by decide)
  · exact ((c5_duplicity kvy4 "T5" rotEv [rsig0] [] none none stR (evDig rotEv)
      (by decide) (by decide) (by decide)).2.2 kvy4.db [rsig0] []).1
  · exact ((c5_duplicity kvy4 "T5" rotEv [rsig0] [] none none stR (evDig rotEv)
      (by decide) (by decide) (by decide)).2.2 kvy4.db [rsig0] []).2.1
  · exact ((c5_duplicity kvy4 "T5" rotEv [rsig0] [] none none stR (evDig rotEv)
      (by decide) (by decide) (by decide)).2.2 kvy4.db [rsig0] []).2.2.2.1

/-- C9 (implicit): an exact duplicate of an already accepted event whose
attached controller and witness signatures all fail verification is
processed without an exception, without any escrow and without any
database change, both for repeat inceptions and for rot, drt or ixn
duplicates. -/
theorem c9_duplicate_no_sig (kvy : Kevery) (now : String) (ev : Event)
    (sigers wigers : List Siger) (seqner : Option Nat) (diger : Option Dig)
    (st : KeverState)
    (hOp1 : (kvy.opre.isSome && kvy.locl && !(kvy.opre == some ev.i)) = false)
    (hOp2 : (kvy.opre.isSome && !kvy.locl && kvy.opre == some ev.i) = false)
    (hK : getVal kvy.kevers ev.i = some st) :
    ((ev.t = .rot ∨ ev.t = .drt ∨ ev.t = .ixn) →
     ¬ ev.s > st.sn + 1 →
     ¬ (ev.s = st.sn + 1 ∨
        ((ev.t = .rot ∨ ev.t = .drt) ∧ st.lastEst.s < ev.s ∧ ev.s ≤ st.sn + 1)) →
     kvy.db.getKeLast ev.i ev.s = some (evDig ev) →
     ∀ eserder, fetchEstEvent kvy.db ev.i ev.s = some eserder →
     verifySigs (serEvent ev) sigers eserder.k = .ok ([], []) →
     ((eserder.s = st.lastEst.s ∧ evDig eserder = st.lastEst.d) →
       verifySigs (serEvent ev) wigers st.wits = .ok ([], [])) →
     processEvent kvy now ev sigers wigers seqner diger = (kvy, .ok ()))
    ∧
    (ev.t = .icp → ev.s = 0 →
     ∀ eserder, fetchEstEvent kvy.db ev.i 0 = some eserder →
     evDig eserder = evDig ev →
     verifySigs (serEvent ev) sigers eserder.k = .ok ([], []) →
     verifySigs (serEvent ev) wigers eserder.b = .ok ([], []) →
     processEvent kvy now ev sigers wigers seqner diger = (kvy, .ok ())) := by
  constructor
  · intro hIlkN hsn1 hsn2 hdd eserder hfe hvs hwsc
    have hIcp : ¬ (ev.t = .icp ∨ ev.t = .dip) := by
      rcases hIlkN with h | h | h <;> simp [h]
    simp only [processEvent, hOp1, hOp2, hK, Bool.false_eq_true, if_false]
    rw [if_neg hIcp, if_neg hsn1, if_neg hsn2, hdd]
    simp only []
    rw [if_pos trivial, hfe]
    simp only []
    rw [hvs]
    simp only []
    by_cases hest : eserder.s = st.lastEst.s ∧ evDig eserder = st.lastEst.d
    · rw [if_pos hest, hwsc hest]
      simp only []
      rw [if_neg (by simp)]
    · rw [if_neg hest]
      simp only []
      rw [if_neg (by simp)]
  · intro hIlk hSn eserder hfe heq hvs hws
    have hIcp : ev.t = .icp ∨ ev.t = .dip := Or.inl hIlk
    simp only [processEvent, hOp1, hOp2, hK, Bool.false_eq_true, if_false]
    rw [if_pos hIcp, if_neg (by simp [hSn]), hSn, hfe]
    simp only []
    rw [if_pos heq, hvs]
    simp only []
    rw [hws]
    simp only []
    rw [if_neg (by simp)]

/-- Witness for C9: feeding the accepted sn 1 rotation again with an
unverifiable signature, and the accepted inception again with an
unverifiable signature, both return success with the Kevery unchanged. -/
theorem c9_duplicate_no_sig_witness :
    processEvent kvy4 "T6" rotEv [⟨0, "bad"⟩] [] none none = (kvy4, .ok ()) ∧
    processEvent kvy4 "T6" icpEv [⟨0, "bad"⟩] [] none none = (kvy4, .ok ()) := by
  constructor
  · exact (c9_duplicate_no_sig kvy4 "T6" rotEv [⟨0, "bad"⟩] [] none none stR
      (by decide) (by decide) (by decide)).1 (Or.inl rfl) (by decide) (by decide)
      (by decide) rotEv (by decide) (by decide) (fun _ => by decide)
  · exact (c9_duplicate_no_sig kvy4 "T6" icpEv [⟨0, "bad"⟩] [] none none stR
      (by decide) (by decide) (by decide)).2 rfl rfl icpEv (by decide) (by decide)
      (by decide) (by decide)

/-- C6: in the Parser.allProcessor loop, a cold-start error or an
extraction error outside a pipelined group deletes all remaining bytes of
the stream before continuing; an extraction error inside a pipelined
group raises a sized-group error that discards exactly the pre-collected
group and leaves the rest of the stream intact; and an error raised by
dispatch after successful extraction leaves the remaining stream intact
while the loop continues with the next message. -/
theorem c6_parser_recovery (kvy : Kevery) (now : String)
    (framed pipeline : Bool) (ims : List Tok) :
    (∀ out kvy2 rest, msgProcessor kvy now framed pipeline ims = (out, kvy2, rest) →
       (out = .coldStart ∨ out = .extraction) →
       (allStep kvy now framed pipeline ims).2.2 = [])
    ∧
    (∀ ev c n gtoks rest,
       ims = .evt ev :: .prm (.pctr .attachedMaterialQuadlets (gtoks.length + 1)) ::
             ((Tok.prm (.pctr c n) :: gtoks) ++ rest) →
       pipeline = false →
       (∀ atts, attLoop framed true (gtoks.length + 1) Atts.empty c n gtoks ≠ .ok atts) →
       msgProcessor kvy now framed pipeline ims = (.sizedGroup, kvy, rest) ∧
       (allStep kvy now framed pipeline ims).2.2 = rest)
    ∧
    (∀ e kvy2 rest fuel,
       msgProcessor kvy now framed pipeline ims = (.dispatchErr e, kvy2, rest) →
       (allStep kvy now framed pipeline ims).2.2 = rest ∧
       (ims ≠ [] → allProcessorGo now framed pipeline (fuel+1) kvy ims =
          allProcessorGo now framed pipeline fuel kvy2 rest)) := by
  refine ⟨?_, ?_, ?_⟩
  · intro out kvy2 rest hmp hout
    rw [allStep, hmp]
    rcases hout with h | h <;> subst h <;> rfl
  · intro ev c n gtoks rest hims hpl hfail
    subst hims
    subst hpl
    have hlen : ¬ ((Tok.prm (.pctr c n) :: gtoks) ++ rest).length < gtoks.length + 1 := by
      simp [List.length_append]
    have hmp : msgProcessor kvy now framed false
        (.evt ev :: .prm (.pctr .attachedMaterialQuadlets (gtoks.length + 1)) ::
          ((Tok.prm (.pctr c n) :: gtoks) ++ rest)) = (.sizedGroup, kvy, rest) := by
      rw [msgProcessor]
      simp only [Bool.false_eq_true, if_false]
      rw [if_neg hlen]
      have htake : ((Tok.prm (.pctr c n) :: gtoks) ++ rest).take (gtoks.length + 1) =
          Tok.prm (.pctr c n) :: gtoks := by
        have h2 : (Tok.prm (.pctr c n) :: gtoks).length = gtoks.length + 1 := by simp
        rw [← h2, List.take_left]
      have hdrop : ((Tok.prm (.pctr c n) :: gtoks) ++ rest).drop (gtoks.length + 1) = rest := by
        have h2 : (Tok.prm (.pctr c n) :: gtoks).length = gtoks.length + 1 := by simp
        rw [← h2, List.drop_left]
      rw [htake, hdrop]
      simp only []
      cases hAL : attLoop framed true (gtoks.length + 1) Atts.empty c n gtoks with
      | ok atts => exact absurd hAL (hfail atts)
      | error e0 => rfl
    exact ⟨hmp, by rw [allStep, hmp]⟩
  · intro e kvy2 rest fuel hmp
    have hne : ims ≠ [] := by
      intro h
      subst h
      rw [msgProcessor] at hmp
      simp at hmp
    constructor
    · rw [allStep, hmp]
    · intro _
      rw [allProcessorGo]
      rw [if_neg (by simpa using hne)]
      rw [allStep, hmp]

/-- Witness for C6: a junk byte at the stream head flushes everything; a
pipelined group whose counter announces more signatures than the group
holds is discarded alone, keeping the following message; and an event
message without signatures is a dispatch error that keeps the stream,
with the loop moving on to the next message. -/
theorem c6_parser_recovery_witness :
    (allStep kvy0 "T0" true false [Tok.junk]).2.2 = [] ∧
    (msgProcessor kvy0 "T0" true false
       (Tok.evt icpEv :: Tok.prm (.pctr .attachedMaterialQuadlets 1) ::
         ((Tok.prm (.pctr .controllerIdxSigs 5) :: ([] : List Tok)) ++ [Tok.evt ixnEv2])) =
       (.sizedGroup, kvy0, [Tok.evt ixnEv2])) ∧
    (allStep kvy0 "T0" true false
       [Tok.evt icpEv, Tok.prm (.pctr .controllerIdxSigs 0), Tok.evt ixnEv2]).2.2 =
      [Tok.evt ixnEv2] ∧
    allProcessorGo "T0" true false 1 kvy0
       [Tok.evt icpEv, Tok.prm (.pctr .controllerIdxSigs 0), Tok.evt ixnEv2] =
      allProcessorGo "T0" true false 0 kvy0 [Tok.evt ixnEv2] := by
  refine ⟨?_, ?_, ?_, ?_⟩
  · exact (c6_parser_recovery kvy0 "T0" true false [Tok.junk]).1 .coldStart kvy0
      [Tok.junk] (by decide) (Or.inl rfl)
  · exact ((c6_parser_recovery kvy0 "T0" true false
      (Tok.evt icpEv :: Tok.prm (.pctr .attachedMaterialQuadlets 1) ::
        ((Tok.prm (.pctr .controllerIdxSigs 5) :: ([] : List Tok)) ++ [Tok.evt ixnEv2]))).2.1
      icpEv .controllerIdxSigs 5 [] [Tok.evt ixnEv2] rfl rfl
      (fun atts hc => by
        have he : attLoop true true (([] : List Tok).length + 1) Atts.empty
            CtrCode.controllerIdxSigs 5 ([] : List Tok) = .error .shortage := by decide
        rw [he] at hc
        cases hc)).1
  · exact ((c6_parser_recovery kvy0 "T0" true false
      [Tok.evt icpEv, Tok.prm (.pctr .controllerIdxSigs 0), Tok.evt ixnEv2]).2.2
      (.validation "missing-sigs") kvy0 [Tok.evt ixnEv2] 0 (by decide)).1
  · exact ((c6_parser_recovery kvy0 "T0" true false
      [Tok.evt icpEv, Tok.prm (.pctr .controllerIdxSigs 0), Tok.evt ixnEv2]).2.2
      (.validation "missing-sigs") kvy0 [Tok.evt ixnEv2] 0 (by decide)).2 (by decide)

/-- C10 (implicit): the message dispatcher hands event processing only
the last extracted first-seen-replay couple and the last seal-source
couple, silently discarding all earlier ones, and rejects a key-event
message without attached controller signatures with a validation error
before dispatch, leaving the Kevery unchanged. -/
theorem c10_last_couples (kvy : Kevery) (now : String) (ev : Event) (atts : Atts) :
    ((ev.t = .icp ∨ ev.t = .rot ∨ ev.t = .ixn ∨ ev.t = .dip ∨ ev.t = .drt) →
     ∀ f0 fr s0 sc,
       msgDispatch kvy now ev { atts with frcs := f0 ++ [fr], sscs := s0 ++ [sc] } =
       msgDispatch kvy now ev { atts with frcs := [fr], sscs := [sc] })
    ∧
    ((ev.t = .icp ∨ ev.t = .rot ∨ ev.t = .ixn ∨ ev.t = .dip ∨ ev.t = .drt) →
     atts.sigers = [] →
     msgDispatch kvy now ev atts = (kvy, .error (.validation "missing-sigs"))) := by
  constructor
  · intro hIlk f0 fr s0 sc
    rcases hIlk with h | h | h | h | h <;>
      simp [msgDispatch, h, List.getLast?_concat]
  · intro hIlk hsig
    rcases hIlk with h | h | h | h | h <;>
      simp [msgDispatch, h, hsig]

/-- Witness for C10: dispatch of an inception with two replay couples and
two source couples equals dispatch with just the last of each, and
dispatch without signatures is rejected with the Kevery unchanged. -/
theorem c10_last_couples_witness :
    (msgDispatch kvy0 "T0" icpEv
       { Atts.empty with frcs := [(7, "a")] ++ [(9, "b")], sscs := [(1, "d1")] ++ [(2, "d2")] } =
     msgDispatch kvy0 "T0" icpEv
       { Atts.empty with frcs := [(9, "b")], sscs := [(2, "d2")] }) ∧
    msgDispatch kvy0 "T0" icpEv Atts.empty = (kvy0, .error (.validation "missing-sigs")) := by
  constructor
  · exact (c10_last_couples kvy0 "T0" icpEv Atts.empty).1 (Or.inl rfl)
      [(7, "a")] (9, "b") [(1, "d1")] (2, "d2")
  · exact (c10_last_couples kvy0 "T0" icpEv Atts.empty).2 (Or.inl rfl) rfl

/-- Counterexample for C7: a verifying receipt couple whose receipter is
in the current witness list is stored only as a witness indexed
signature; the receipt-couple table stays empty, contradicting the claim
that every verifying couple is stored there. -/
theorem c7_receipt_couple_counterexample :
    preTransCode cigW.vK = false ∧
    verifyRawSig cigW.vK cigW.raw (serEvent icpW) = true ∧
    stW.wits.contains cigW.vK = true ∧
    (processReceipt kvyW "T0" rctW [cigW]).2 = .ok () ∧
    (processReceipt kvyW "T0" rctW [cigW]).1.db.rcts = [] ∧
    ((rctW.i, evDig icpW), Siger.qb64 ⟨0, cigW.raw⟩) ∈
      (processReceipt kvyW "T0" rctW [cigW]).1.db.wigs := by
  decide

/-- C7 (amended): a verifying receipt couple on an accepted event is
stored as a witness indexed signature at the receipter offset when the
receipter is in the current witness list, and otherwise (and only then)
as a receipt couple at (identifier, event digest). -/
theorem c7_receipt_couple_amended (kvy : Kevery) (now : String) (ev : Event)
    (cigar : Cigar) (st : KeverState) (ldig : Dig) (lserder : Event)
    (hld : kvy.db.getKeLast ev.i ev.s = some ldig)
    (hle : kvy.db.getEvt ev.i ldig = some lserder)
    (hd : evDig lserder = ev.d)
    (htr : preTransCode cigar.vK = false)
    (hown : (kvy.opre.isSome && kvy.opre == some cigar.vK &&
             (kvy.opre == some ev.i || !kvy.locl)) = false)
    (hver : verifyRawSig cigar.vK cigar.raw (serEvent lserder) = true)
    (hkev : getVal kvy.kevers ev.i = some st) :
    (st.wits.contains cigar.vK = true →
      processReceipt kvy now ev [cigar] =
        ({ kvy with db := { kvy.db with
             wigs := addDup kvy.db.wigs (ev.i, ldig) (Siger.qb64 ⟨st.wits.indexOf cigar.vK, cigar.raw⟩) } },
         .ok ()))
    ∧
    (st.wits.contains cigar.vK = false →
      processReceipt kvy now ev [cigar] =
        ({ kvy with db := { kvy.db with
             rcts := addDup kvy.db.rcts (ev.i, ldig) (cigar.vK ++ Cigar.qb64 cigar) } },
         .ok ())) := by
  constructor
  · intro hwit
    rw [processReceipt, hld]
    simp only []
    rw [hle]
    simp only []
    rw [if_neg (by simp [hd])]
    rw [rctCouples]
    rw [if_neg (by simp [htr]), if_neg (by simp [hown]), if_pos (by simp [hver])]
    rw [hkev]
    simp only []
    rw [if_pos (by simpa using hwit)]
    rw [rctCouples]
  · intro hwit
    rw [processReceipt, hld]
    simp only []
    rw [hle]
    simp only []
    rw [if_neg (by simp [hd])]
    rw [rctCouples]
    rw [if_neg (by simp [htr]), if_neg (by simp [hown]), if_pos (by simp [hver])]
    rw [hkev]
    simp only []
    rw [if_neg (by simpa using hwit)]
    rw [rctCouples]

/-- Witness for the amended C7: the witness receipter couple lands in the
witness signature set at its roster offset, and a non-witness receipter
couple lands in the receipt-couple set. -/
theorem c7_receipt_couple_amended_witness :
    (processReceipt kvyW "T0" rctW [cigW] =
      ({ kvyW with db := { kvyW.db with
           wigs := addDup kvyW.db.wigs (rctW.i, evDig icpW) (Siger.qb64 ⟨stW.wits.indexOf cigW.vK, cigW.raw⟩) } },
       .ok ())) ∧
    (processReceipt kvyW "T0" rctW [cigY] =
      ({ kvyW with db := { kvyW.db with
           rcts := addDup kvyW.db.rcts (rctW.i, evDig icpW) (cigY.vK ++ Cigar.qb64 cigY) } },
       .ok ())) := by
  constructor
  · exact (c7_receipt_couple_amended kvyW "T0" rctW cigW stW (evDig icpW) icpW
      (by decide) (by decide) (by decide) (by decide) (by decide) (by decide)
      (by decide)).1 (by decide)
  · exact (c7_receipt_couple_amended kvyW "T0" rctW cigY stW (evDig icpW) icpW
      (by decide) (by decide) (by decide) (by decide) (by decide) (by decide)
      (by decide)).2 (by decide)

end Keri
